import Mathlib

/-!
Shallow embedding of `pixeltable/utils/video.py` (class `FrameIterator`), the
frame-sequencing engine: an iterator that starts an external ffmpeg container
and a watchdog observer lazily, receives out-of-order "file closed"
notifications through a queue, buffers them in a sparse path table and yields
frames strictly in index order.

Modelling conventions:
* `FrameIterator` is the runtime state of one iterator instance.  The external
  world (watchdog events arriving on the queue, the container being observed
  as exited by `reload()`) is supplied as a trace of `EnvStep`s, one step per
  iteration of the wait loop in `__next__` (one `container.reload()` poll plus
  one `path_queue.get(timeout=1)`, which yields an event if the queue is
  non-empty and `queue.Empty` otherwise).
* The container's log line `log_output[-2]` is carried in the state as
  `info_line`; the regex search `frame=\s*(\d+)` on it is implemented as
  `searchFrame`.
* Filenames are strings; `re.match(rf'{id}_(\d+)\.jpg', name)` is implemented
  character-exactly as `matchIdx` (anchored at the start, greedy digit group,
  arbitrary suffix after `.jpg`).
* The scratch directory is `disk : List String` (set of existing files);
  `os.remove` inside `try/except FileNotFoundError` is `List.filter`, which
  never raises on a missing file.
* Python exceptions become explicit result constructors: `StopIteration`,
  `RuntimeError('Unexpected frame path: ...')`,
  `RuntimeError('Could not extract frame count from ffmpeg output')`,
  `AssertionError`, `IndexError`.
-/

namespace Video

/-- `int` of a decimal digit string, as Python `int(m.group(1))`. -/
def natOfDigits (cs : List Char) : Nat :=
  cs.foldl (fun a c => 10 * a + (c.toNat - 48)) 0

/-- `Path(p).name`: the part of the path after the last slash. -/
def basename (p : String) : String :=
  ⟨(p.data.reverse.takeWhile (fun c => c ≠ '/')).reverse⟩

/-- `self.idx_re.match(path.name)` for `idx_re = re.compile(rf'{id}_(\d+)\.jpg')`
(video.py lines 43 and 189): anchored at the start of the name, literal run id,
underscore, a non-empty greedy digit group, then literally `.jpg`; anything may
follow.  Returns the parsed digit group. -/
def matchIdx (id : String) (name : String) : Option Nat :=
  let cs := name.data
  let pre := (id ++ "_").data
  if cs.take pre.length = pre then
    let rest := cs.drop pre.length
    let ds := rest.takeWhile Char.isDigit
    if ds ≠ [] ∧ (rest.dropWhile Char.isDigit).take 4 = ['.', 'j', 'p', 'g'] then
      some (natOfDigits ds)
    else none
  else none

/-- `re.search(r'frame=\s*(\d+)', info_line)` (video.py line 162): scan for the
first position where the literal `frame=`, optional whitespace and at least one
digit match; return the parsed digit group, `none` when the marker is absent. -/
def searchFrame : List Char → Option Nat
  | [] => none
  | c :: rest =>
    if (c :: rest).take 6 = ['f', 'r', 'a', 'm', 'e', '='] then
      let after := (c :: rest).drop 6
      let ds := (after.dropWhile Char.isWhitespace).takeWhile Char.isDigit
      if ds ≠ [] then some (natOfDigits ds) else searchFrame rest
    else searchFrame rest

/-- A decimal digit as a character. -/
def digitChar : Nat → Char
  | 0 => '0'
  | 1 => '1'
  | 2 => '2'
  | 3 => '3'
  | 4 => '4'
  | 5 => '5'
  | 6 => '6'
  | 7 => '7'
  | 8 => '8'
  | 9 => '9'
  | _ => '*'

/-- Decimal digit characters of `n`, most significant first (empty for 0);
the fuel argument makes the recursion structural. -/
def decCharsAux : Nat → Nat → List Char
  | 0, _ => []
  | fuel + 1, n =>
    if n = 0 then [] else decCharsAux fuel (n / 10) ++ [digitChar (n % 10)]

/-- Decimal digit characters of `n`, most significant first (empty for 0). -/
def decChars (n : Nat) : List Char := decCharsAux n n

/-- `'%07d' % n`: `n` in decimal, left-padded with zeros to width 7. -/
def pad7 (n : Nat) : List Char :=
  List.replicate (7 - (decChars n).length) '0' ++ decChars n

/-- The output filename the container writes for 1-based frame number `n`:
`f'{id}_%07d.jpg'` (video.py line 85). -/
def fname (id : String) (n : Nat) : String := id ++ "_" ++ ⟨pad7 n⟩ ++ ".jpg"

/-- Observed docker container status (`self.container.status`). -/
inductive ContainerStatus
  | running
  | exited
deriving DecidableEq, Repr

/-- Python exceptions that can escape the sequencer's methods. -/
inductive Err
  /-- `RuntimeError(f'Unexpected frame path: {path}')` (video.py line 191). -/
  | unexpectedFramePath (p : String)
  /-- `RuntimeError('Could not extract frame count from ffmpeg output')` (line 164). -/
  | noFrameCount
  /-- a failed `assert`. -/
  | assertionError
  /-- an out-of-range list subscript. -/
  | indexError
deriving DecidableEq, Repr

/-- Runtime state of one `FrameIterator` instance. -/
structure FrameIterator where
  /-- `self.id`, the run identifier baked into filenames. -/
  id : String
  /-- `self.next_frame_idx`; `-1` means extraction has not started. -/
  next_frame_idx : Int
  /-- `self.frame_paths`, the sparse frame path table. -/
  frame_paths : List (Option String)
  /-- `self.path_queue` contents, oldest event first; entries are `event.src_path`. -/
  path_queue : List String
  /-- observed `self.container.status`. -/
  container_status : ContainerStatus
  /-- `self.num_frames`, the authoritative count once the exit log is parsed. -/
  num_frames : Option Nat
  /-- whether the watchdog observer thread is running (`observer.start()` /
  `observer.stop()`). -/
  observer_running : Bool
  /-- the container log line `log_output[-2]` that will be parsed on exit. -/
  info_line : String
  /-- `self.est_num_frames`, the advisory pre-run estimate. -/
  est_num_frames : Option Nat
  /-- the files currently existing in the scratch directory. -/
  disk : List String
deriving DecidableEq, Repr

/-- One iteration's worth of external-world behaviour inside the wait loop of
`__next__`: whether `container.reload()` observes the container as exited, and
which files are written-and-closed (hence queued by the watcher, and present on
disk) before this iteration's `path_queue.get(timeout=1)` returns. -/
structure EnvStep where
  exitsNow : Bool
  arrivals : List String
deriving DecidableEq, Repr

/-- Result of one `__next__` call. -/
inductive NextRes
  /-- normal return `(frame idx, path)`. -/
  | frame (idx : Nat) (path : String)
  /-- `raise StopIteration`. -/
  | stopIteration
  /-- a raised exception. -/
  | err (e : Err)
  /-- the supplied environment trace ran out while the wait loop was still
  waiting (the call would still be blocking). -/
  | timeoutExhausted
deriving DecidableEq, Repr

/-- `self.frame_paths[idx] = path` after growing the list, for a 0-based
index known to be `≥ 0` (video.py lines 194-196). -/
def setSlot (t : List (Option String)) (i : Nat) (p : String) : List (Option String) :=
  (if t.length ≤ i then t ++ List.replicate (i + 1 - t.length) none else t).set i (some p)

/-- `FrameIterator._add_path` (video.py lines 185-196), acting on the path
table: match the filename against the run pattern (a mismatch raises
`RuntimeError`), convert the 1-based number to a 0-based index and store the
path, growing the table if needed.  A number of `0` yields Python index `-1`,
which writes the last slot (or raises `IndexError` on an empty table). -/
def addPathTable (id : String) (t : List (Option String)) (path : String) :
    Except Err (List (Option String)) :=
  match matchIdx id (basename path) with
  | none => .error (.unexpectedFramePath path)
  | some n =>
    match n with
    | 0 =>
      match t with
      | [] => .error .indexError
      | _ => .ok (t.set (t.length - 1) (some path))
    | Nat.succ m => .ok (setSlot t m path)

/-- `FrameIterator._start_extraction` (video.py lines 73-121), restricted to
its effect on the sequencing state: the cursor becomes 0, the watchdog
observer is started and the container begins running. -/
def startExtraction (s : FrameIterator) : FrameIterator :=
  { s with next_frame_idx := 0, container_status := .running, observer_running := true }

/-- `self.next_frame_idx == self.num_frames` (video.py line 141); in Python an
`int` never equals `None`. -/
def atBound (s : FrameIterator) : Bool :=
  match s.num_frames with
  | some n => s.next_frame_idx = (n : Int)
  | none => false

/-- the padding condition of video.py lines 146-147. -/
def padCond (s : FrameIterator) : Bool :=
  decide ((s.frame_paths.length : Int) < s.next_frame_idx + 1) &&
  (match s.num_frames with
   | none => true
   | some n => decide (s.frame_paths.length < n))

/-- the status poll at the top of the wait loop (video.py lines 154-169):
if the container has not yet been observed as exited, `reload()`; on first
observing the exit, parse the trailing log line for `frame=<N>` (failure is a
`RuntimeError`), record the authoritative count, and if the cursor already
equals it, stop the observer and raise `StopIteration`.  `Sum.inl` is an early
exit from `__next__`, `Sum.inr` the state in which the loop continues. -/
def pollStep (step : EnvStep) (s : FrameIterator) :
    (NextRes × FrameIterator) ⊕ FrameIterator :=
  if s.container_status ≠ ContainerStatus.exited ∧ step.exitsNow then
    match searchFrame s.info_line.data with
    | none => Sum.inl (.err .noFrameCount, { s with container_status := .exited })
    | some m =>
      if s.next_frame_idx = (m : Int) then
        Sum.inl (.stopIteration,
          { s with container_status := .exited, num_frames := some m,
                   observer_running := false })
      else
        Sum.inr { s with container_status := .exited, num_frames := some m }
  else Sum.inr s

/-- the files written-and-closed during this iteration's bounded wait appear on
disk and their events are appended to the notification queue. -/
def arrive (step : EnvStep) (s : FrameIterator) : FrameIterator :=
  { s with path_queue := s.path_queue ++ step.arrivals, disk := s.disk ++ step.arrivals }

/-- Evaluating the `while` condition `self.frame_paths[self.next_frame_idx] is
None` (video.py line 153): an out-of-range subscript is an `IndexError`; a slot
holding a path ends the loop, upon which lines 180-183 return `(cursor, path)`
and advance the cursor; an unset slot means the loop continues (`none`). -/
def loopExit (s : FrameIterator) : Option (NextRes × FrameIterator) :=
  match s.frame_paths[s.next_frame_idx.toNat]? with
  | none => some (.err .indexError, s)
  | some (some p) =>
    some (.frame s.next_frame_idx.toNat p, { s with next_frame_idx := s.next_frame_idx + 1 })
  | some none => none

/-- the bounded-wait `get` of video.py lines 174-178: pop the oldest queued
event if any (processed by `_add_path`, whose `RuntimeError` propagates with
the event consumed) and otherwise time out (`pass`). -/
def recvOnce (s : FrameIterator) : (NextRes × FrameIterator) ⊕ FrameIterator :=
  match s.path_queue with
  | [] => .inr s
  | ev :: qrest =>
    match addPathTable s.id s.frame_paths ev with
    | .error e => .inl (.err e, { s with path_queue := qrest })
    | .ok t => .inr { s with path_queue := qrest, frame_paths := t }

/-- One iteration of the wait loop body (video.py lines 154-178): the status
poll, then the bounded-wait `get` on the queue as extended by this
iteration's arrivals.  `Sum.inl` is an early exit from `__next__`,
`Sum.inr` the state in which the loop continues. -/
def loopIter (step : EnvStep) (s : FrameIterator) :
    (NextRes × FrameIterator) ⊕ FrameIterator :=
  match pollStep step s with
  | .inl r => .inl r
  | .inr s₁ => recvOnce (arrive step s₁)

/-- The wait loop `while self.frame_paths[self.next_frame_idx] is None`
(video.py lines 153-183), one `EnvStep` consumed per iteration; an exhausted
trace while the slot is still unset models a call that is still blocking. -/
def nextLoop : List EnvStep → FrameIterator → NextRes × FrameIterator
  | [], s =>
    match loopExit s with
    | some r => r
    | none => (.timeoutExhausted, s)
  | step :: rest, s =>
    match loopExit s with
    | some r => r
    | none =>
      match loopIter step s with
      | .inl r => r
      | .inr s₁ => nextLoop rest s₁

/-- `__next__` after the deletion step: the terminal check of video.py
lines 141-144 (stop the observer and raise `StopIteration` at the bound), the
padding of lines 146-150 (with its `assert len(self.frame_paths) ==
self.next_frame_idx`), then the wait loop. -/
def nextBody (s : FrameIterator) (trace : List EnvStep) : NextRes × FrameIterator :=
  if atBound s then (.stopIteration, { s with observer_running := false })
  else if padCond s then
    if (s.frame_paths.length : Int) = s.next_frame_idx then
      nextLoop trace { s with frame_paths := s.frame_paths ++ [none] }
    else (.err .assertionError, s)
  else nextLoop trace s

/-- `str(slot)`: Python stringifies `None` when a cleared slot is deleted. -/
def strOfSlot : Option String → String
  | some p => p
  | none => "None"

/-- `FrameIterator.__next__` (video.py lines 126-183): lazy start when the
cursor is `-1`; then the previously delivered frame's file is deleted
(`os.remove` under `except FileNotFoundError: pass`, so a missing file is
silently tolerated, but the table subscript itself can raise `IndexError`);
then `nextBody`. -/
def nextFrame (s₀ : FrameIterator) (trace : List EnvStep) : NextRes × FrameIterator :=
  let s := if s₀.next_frame_idx = -1 then startExtraction s₀ else s₀
  if 0 ≤ s.next_frame_idx - 1 then
    match s.frame_paths[(s.next_frame_idx - 1).toNat]? with
    | none => (.err .indexError, s)
    | some v => nextBody { s with disk := s.disk.filter (fun q => q ≠ strOfSlot v) } trace
  else nextBody s trace

/-- Result of a `seek` call. -/
inductive SeekRes
  /-- normal return. -/
  | done
  /-- a `StopIteration` escaping from the `__next__` inside the loop. -/
  | stopIter
  /-- a raised exception. -/
  | err (e : Err)
  /-- the supplied traces ran out mid-loop. -/
  | outOfFuel
deriving DecidableEq, Repr

/-- the loop `while frame_idx < self.next_frame_idx: _ = self.__next__()`
(video.py lines 205-206), one environment trace per `__next__` call.  Note the
comparison direction is exactly the source's. -/
def seekLoop (frame_idx : Nat) : List (List EnvStep) → FrameIterator → SeekRes × FrameIterator
  | traces, s =>
    if (frame_idx : Int) < s.next_frame_idx then
      match traces with
      | [] => (.outOfFuel, s)
      | t :: ts =>
        match nextFrame s t with
        | (.frame _ _, s') => seekLoop frame_idx ts s'
        | (.stopIteration, s') => (.stopIter, s')
        | (.err e, s') => (.err e, s')
        | (.timeoutExhausted, s') => (.outOfFuel, s')
    else (.done, s)

/-- `FrameIterator.seek` (video.py lines 198-206): assert `frame_idx ≥
next_frame_idx`, lazily start extraction, then the loop above. -/
def seek (s : FrameIterator) (frame_idx : Nat) (traces : List (List EnvStep)) :
    SeekRes × FrameIterator :=
  if (frame_idx : Int) ≥ s.next_frame_idx then
    seekLoop frame_idx traces
      (if s.next_frame_idx = -1 then startExtraction s else s)
  else (.err .assertionError, s)

/-- Result of a `close` call. -/
inductive CloseRes
  /-- normal return. -/
  | done
  /-- a raised exception. -/
  | err (e : Err)
  /-- the supplied traces ran out mid-loop. -/
  | outOfFuel
deriving DecidableEq, Repr

/-- the drain loop of `close` (video.py lines 218-222): call `__next__`
repeatedly until `StopIteration`, which is caught and ends the call. -/
def closeLoop : List (List EnvStep) → FrameIterator → CloseRes × FrameIterator
  | [], s => (.outOfFuel, s)
  | t :: ts, s =>
    match nextFrame s t with
    | (.stopIteration, s') => (.done, s')
    | (.frame _ _, s') => closeLoop ts s'
    | (.err e, s') => (.err e, s')
    | (.timeoutExhausted, s') => (.outOfFuel, s')

/-- `FrameIterator.close` (video.py lines 214-222): nothing to do when the
iterator was never started, otherwise drain. -/
def close (s : FrameIterator) (traces : List (List EnvStep)) : CloseRes × FrameIterator :=
  if s.next_frame_idx = -1 then (.done, s) else closeLoop traces s

/-- Outcome of the pre-run ffprobe estimation container (video.py lines
48-57): `fail` models any raised exception along that path (docker failure,
unparseable json, missing `streams` fields); `ok` carries the parsed
`nb_frames` and the already-truncated `int(fps * float(duration))` (duration
is a float in the source; only this product of it is ever used). -/
inductive ProbeOutcome
  | fail
  | ok (nb_frames : Nat) (fpsTimesDuration : Nat)
deriving DecidableEq, Repr

/-- The estimation part of `FrameIterator.__init__` (video.py lines 46-64) and
the construction of the runtime state (lines 42-44 and 66-71).  When an
`ffmpeg_filter` is supplied no probe is attempted and the estimate is `None`;
otherwise the probe runs and any exception it raises propagates out of
`__init__` (there is no handler), modelled as `.error ()`. -/
def initFrameIterator (id : String) (info_line : String) (hasFilter : Bool)
    (fps : Nat) (probe : ProbeOutcome) : Except Unit FrameIterator :=
  let mk : Option Nat → FrameIterator := fun est =>
    { id := id, next_frame_idx := -1, frame_paths := [], path_queue := [],
      container_status := .running, num_frames := none, observer_running := false,
      info_line := info_line, est_num_frames := est, disk := [] }
  if hasFilter then .ok (mk none)
  else
    match probe with
    | .fail => .error ()
    | .ok nb ftd => .ok (mk (some (if fps = 0 then nb else ftd)))

/-- a wait-loop iteration in which nothing happens: the container is not
observed to exit and no file arrives (a `queue.Empty` timeout). -/
def timeoutStep : EnvStep := ⟨false, []⟩

def timeoutSteps (m : Nat) : List EnvStep := List.replicate m timeoutStep

/-! ### Slot-table lemmas -/

/-- the value of table slot `j`, with out-of-range slots reading as unset. -/
def slotD (t : List (Option String)) (j : Nat) : Option String := (t[j]?).getD none

lemma slotD_isSome_lt {t : List (Option String)} {j : Nat} {p : String}
    (h : slotD t j = some p) : j < t.length := by
  by_contra hj
  simp [slotD, List.getElem?_eq_none (Nat.le_of_not_lt hj)] at h

lemma getElem?_of_slotD {t : List (Option String)} {j : Nat} (h : j < t.length) :
    t[j]? = some (slotD t j) := by
  rw [slotD, List.getElem?_eq_getElem h]
  rfl

lemma length_setSlot (t : List (Option String)) (i : Nat) (p : String) :
    (setSlot t i p).length = max t.length (i + 1) := by
  unfold setSlot
  by_cases h : t.length ≤ i <;> simp [h] <;> omega

lemma length_le_setSlot (t : List (Option String)) (i : Nat) (p : String) :
    t.length ≤ (setSlot t i p).length := by
  rw [length_setSlot]; omega

lemma lt_length_setSlot (t : List (Option String)) (i : Nat) (p : String) :
    i < (setSlot t i p).length := by
  rw [length_setSlot]; omega

lemma getElem?_setSlot_self (t : List (Option String)) (i : Nat) (p : String) :
    (setSlot t i p)[i]? = some (some p) := by
  unfold setSlot
  by_cases h : t.length ≤ i
  · simp only [h, if_true]
    exact List.getElem?_set_self (by simp [List.length_append]; omega)
  · simp only [h, if_false]
    exact List.getElem?_set_self (by omega)

lemma getElem?_setSlot_ne (t : List (Option String)) (i j : Nat) (p : String)
    (hne : j ≠ i) (hj : j < t.length) : (setSlot t i p)[j]? = t[j]? := by
  unfold setSlot
  by_cases h : t.length ≤ i
  · simp only [h, if_true]
    rw [List.getElem?_set_ne (fun he => hne he.symm), List.getElem?_append_left hj]
  · simp only [h, if_false]
    exact List.getElem?_set_ne (fun he => hne he.symm)

lemma slotD_setSlot_self (t : List (Option String)) (i : Nat) (p : String) :
    slotD (setSlot t i p) i = some p := by
  simp [slotD, getElem?_setSlot_self]

lemma slotD_setSlot_ne (t : List (Option String)) (i j : Nat) (p : String)
    (hne : j ≠ i) : slotD (setSlot t i p) j = slotD t j := by
  unfold setSlot
  by_cases h : t.length ≤ i
  · simp only [h, if_true, slotD]
    rw [List.getElem?_set_ne (fun he => hne he.symm)]
    rcases Nat.lt_or_ge j t.length with hj | hj
    · rw [List.getElem?_append_left hj]
    · rw [List.getElem?_append_right hj, List.getElem?_replicate,
        List.getElem?_eq_none hj]
      by_cases hlt : j - t.length < i + 1 - t.length <;> simp [hlt]
  · simp only [h, if_false, slotD]
    rw [List.getElem?_set_ne (fun he => hne he.symm)]

lemma slotD_append_none (t : List (Option String)) (j : Nat) :
    slotD (t ++ [none]) j = slotD t j := by
  unfold slotD
  rcases Nat.lt_or_ge j t.length with hj | hj
  · rw [List.getElem?_append_left hj]
  · rw [List.getElem?_append_right hj, List.getElem?_eq_none hj]
    rcases Nat.lt_or_ge (j - t.length) 1 with h1 | h1
    · have h0 : j - t.length = 0 := by omega
      rw [h0]
      rfl
    · rw [List.getElem?_eq_none (by simpa using h1)]

/-! ### Digit-string round trip -/

lemma digitChar_isDigit {d : Nat} (h : d < 10) : (digitChar d).isDigit = true := by
  interval_cases d <;> decide

lemma digitChar_toNat {d : Nat} (h : d < 10) : (digitChar d).toNat - 48 = d := by
  interval_cases d <;> decide

lemma foldl_digits_rev (L : List Nat) (a : Nat) (h : ∀ d ∈ L, d < 10) :
    List.foldl (fun a c => 10 * a + (c.toNat - 48)) a ((L.map digitChar).reverse)
      = a * 10 ^ L.length + Nat.ofDigits 10 L := by
  induction L generalizing a with
  | nil => simp
  | cons d L ih =>
    have hd : d < 10 := h d (List.mem_cons_self d L)
    have hL : ∀ x ∈ L, x < 10 := fun x hx => h x (List.mem_cons_of_mem d hx)
    simp only [List.map_cons, List.reverse_cons, List.foldl_append, List.foldl_cons,
      List.foldl_nil, Nat.ofDigits_cons, List.length_cons]
    rw [digitChar_toNat hd, ih a hL]
    ring

lemma decCharsAux_eq (fuel : Nat) : ∀ n : Nat, n ≤ fuel →
    decCharsAux fuel n = ((Nat.digits 10 n).map digitChar).reverse := by
  induction fuel with
  | zero =>
    intro n hn
    interval_cases n
    simp [decCharsAux]
  | succ fuel ih =>
    intro n hn
    rcases Nat.eq_zero_or_pos n with rfl | hpos
    · simp [decCharsAux]
    · have hne : ¬ (n = 0) := by omega
      have hdiv : n / 10 ≤ fuel := by
        have := Nat.div_lt_self hpos (by norm_num : 1 < 10)
        omega
      rw [decCharsAux, if_neg hne, ih (n / 10) hdiv,
        Nat.digits_def' (by norm_num : 1 < 10) hpos]
      simp

lemma decChars_eq (n : Nat) :
    decChars n = ((Nat.digits 10 n).map digitChar).reverse :=
  decCharsAux_eq n n (le_refl n)

lemma natOfDigits_decChars (n : Nat) : natOfDigits (decChars n) = n := by
  have := foldl_digits_rev (Nat.digits 10 n) 0
    (fun d hd => Nat.digits_lt_base (by norm_num) hd)
  rw [decChars_eq]
  simpa [natOfDigits, Nat.ofDigits_digits] using this

lemma natOfDigits_replicate_zero (m : Nat) (cs : List Char) :
    natOfDigits (List.replicate m '0' ++ cs) = natOfDigits cs := by
  unfold natOfDigits
  rw [List.foldl_append]
  congr 1
  induction m with
  | zero => simp
  | succ m ih => simpa [List.replicate_succ] using ih

lemma natOfDigits_pad7 (n : Nat) : natOfDigits (pad7 n) = n := by
  rw [pad7, natOfDigits_replicate_zero, natOfDigits_decChars]

lemma pad7_isDigit (n : Nat) : ∀ c ∈ pad7 n, c.isDigit = true := by
  intro c hc
  rcases List.mem_append.mp hc with h | h
  · rw [List.eq_of_mem_replicate h]; decide
  · rw [decChars_eq] at h
    rw [List.mem_reverse] at h
    obtain ⟨d, hd, rfl⟩ := List.mem_map.mp h
    exact digitChar_isDigit (Nat.digits_lt_base (by norm_num) hd)

lemma pad7_ne_nil (n : Nat) : pad7 n ≠ [] := by
  have : 0 < (pad7 n).length := by
    simp only [pad7, List.length_append, List.length_replicate]
    omega
  exact List.ne_nil_of_length_pos this

lemma takeWhile_all_append {p : Char → Bool} (l₁ : List Char) (c : Char) (l₂ : List Char)
    (h₁ : ∀ x ∈ l₁, p x = true) (hc : p c = false) :
    (l₁ ++ c :: l₂).takeWhile p = l₁ ∧ (l₁ ++ c :: l₂).dropWhile p = c :: l₂ := by
  induction l₁ with
  | nil => simp [List.takeWhile, List.dropWhile, hc]
  | cons x l₁ ih =>
    have hx : p x = true := h₁ x (List.mem_cons_self x l₁)
    have := ih (fun y hy => h₁ y (List.mem_cons_of_mem x hy))
    simp [List.takeWhile, List.dropWhile, hx, this.1, this.2]

/-! ### The filename round trip -/

/-- run identifiers that contain no path separator (true of the hex ids the
source generates). -/
def goodId (id : String) : Prop := '/' ∉ id.data

instance (id : String) : Decidable (goodId id) := by unfold goodId; infer_instance

lemma takeWhile_ne_slash_eq_self {l : List Char} (h : '/' ∉ l) :
    l.takeWhile (fun c => c ≠ '/') = l := by
  rw [List.takeWhile_eq_self_iff]
  intro x hx
  simp only [decide_eq_true_eq]
  exact fun he => h (he ▸ hx)

lemma basename_eq_self {p : String} (h : '/' ∉ p.data) : basename p = p := by
  unfold basename
  have : '/' ∉ p.data.reverse := by simpa using h
  rw [takeWhile_ne_slash_eq_self this, List.reverse_reverse]

lemma fname_data (id : String) (n : Nat) :
    (fname id n).data = (id ++ "_").data ++ (pad7 n ++ ('.' :: ['j', 'p', 'g'])) := by
  simp [fname, String.data_append]

lemma no_slash_fname {id : String} (h : goodId id) {n : Nat} :
    '/' ∉ (fname id n).data := by
  rw [fname_data]
  intro hmem
  rcases List.mem_append.mp hmem with h1 | h1
  · have h2 : '/' ∈ id.data := by simpa [String.data_append] using h1
    exact h h2
  · rcases List.mem_append.mp h1 with h2 | h2
    · exact absurd (pad7_isDigit n _ h2) (by decide)
    · simp at h2

lemma basename_fname {id : String} (h : goodId id) (n : Nat) :
    basename (fname id n) = fname id n :=
  basename_eq_self (no_slash_fname h)

lemma matchIdx_fname (id : String) (n : Nat) : matchIdx id (fname id n) = some n := by
  unfold matchIdx
  rw [fname_data]
  simp only [List.take_left, if_true]
  rw [List.drop_left]
  have hdig := @takeWhile_all_append Char.isDigit (pad7 n) '.' ['j', 'p', 'g']
    (pad7_isDigit n) (by decide)
  rw [hdig.1, hdig.2]
  simp [pad7_ne_nil n, natOfDigits_pad7]

/-- `_add_path` on a well-formed container filename for 1-based number
`n ≥ 1`: it always succeeds and stores the path at slot `n - 1`. -/
lemma addPathTable_fname {id : String} (h : goodId id) (t : List (Option String))
    {n : Nat} (hn : 1 ≤ n) :
    addPathTable id t (fname id n) = .ok (setSlot t (n - 1) (fname id n)) := by
  unfold addPathTable
  rw [basename_fname h, matchIdx_fname]
  obtain ⟨m, rfl⟩ : ∃ m, n = m + 1 := ⟨n - 1, by omega⟩
  rfl

/-! ### Per-iteration inversion lemmas -/

lemma addPathTable_ok_length {id : String} {t t' : List (Option String)} {ev : String}
    (h : addPathTable id t ev = .ok t') : t.length ≤ t'.length := by
  unfold addPathTable at h
  split at h
  · cases h
  · split at h
    · split at h
      · cases h
      · injection h with h
        subst h
        simp
    · injection h with h
      subst h
      exact length_le_setSlot _ _ _

lemma addPathTable_error_unexpected {id : String} {t : List (Option String)} {ev p : String}
    (h : addPathTable id t ev = .error (.unexpectedFramePath p)) :
    p = ev ∧ matchIdx id (basename ev) = none := by
  unfold addPathTable at h
  split at h
  · injection h with h
    injection h with h
    exact ⟨h.symm, by assumption⟩
  · split at h
    · split at h
      · injection h with h
        cases h
      · cases h
    · cases h

lemma addPathTable_no_noFrameCount {id : String} {t : List (Option String)} {ev : String}
    (h : addPathTable id t ev = .error .noFrameCount) : False := by
  unfold addPathTable at h
  split at h
  · injection h with h
    cases h
  · split at h
    · split at h
      · injection h with h
        cases h
      · cases h
    · cases h

lemma loopExit_none {s : FrameIterator}
    (h : s.frame_paths[s.next_frame_idx.toNat]? = some none) : loopExit s = none := by
  simp [loopExit, h]

lemma loopExit_frame {s : FrameIterator} {p : String}
    (h : s.frame_paths[s.next_frame_idx.toNat]? = some (some p)) :
    loopExit s = some (.frame s.next_frame_idx.toNat p,
      { s with next_frame_idx := s.next_frame_idx + 1 }) := by
  simp [loopExit, h]

lemma loopExit_some_inv {s : FrameIterator} {r : NextRes} {s' : FrameIterator}
    (h : loopExit s = some (r, s')) :
    (r = .err .indexError ∧ s' = s ∧ s.frame_paths[s.next_frame_idx.toNat]? = none) ∨
    (∃ p, r = .frame s.next_frame_idx.toNat p ∧
      s.frame_paths[s.next_frame_idx.toNat]? = some (some p) ∧
      s' = { s with next_frame_idx := s.next_frame_idx + 1 }) := by
  unfold loopExit at h
  split at h
  · simp only [Option.some.injEq, Prod.mk.injEq] at h
    exact Or.inl ⟨h.1.symm, h.2.symm, by assumption⟩
  · simp only [Option.some.injEq, Prod.mk.injEq] at h
    exact Or.inr ⟨_, h.1.symm, by assumption, h.2.symm⟩
  · cases h

lemma pollStep_inr_inv {step : EnvStep} {s s₁ : FrameIterator}
    (h : pollStep step s = .inr s₁) :
    s₁ = s ∨
    ∃ m, searchFrame s.info_line.data = some m ∧ s.container_status ≠ .exited ∧
      s.next_frame_idx ≠ (m : Int) ∧
      s₁ = { s with container_status := .exited, num_frames := some m } := by
  unfold pollStep at h
  split at h
  · split at h
    · cases h
    · split at h
      · cases h
      · simp only [Sum.inr.injEq] at h
        exact Or.inr ⟨_, by assumption, by tauto, by assumption, h.symm⟩
  · simp only [Sum.inr.injEq] at h
    exact Or.inl h.symm

lemma pollStep_inl_inv {step : EnvStep} {s : FrameIterator} {r : NextRes}
    {s' : FrameIterator} (h : pollStep step s = .inl (r, s')) :
    s.container_status ≠ .exited ∧ step.exitsNow = true ∧
    ((r = .err .noFrameCount ∧ searchFrame s.info_line.data = none ∧
        s' = { s with container_status := .exited }) ∨
      (∃ m, r = .stopIteration ∧ searchFrame s.info_line.data = some m ∧
        s.next_frame_idx = (m : Int) ∧
        s' = { s with container_status := .exited, num_frames := some m,
                      observer_running := false })) := by
  unfold pollStep at h
  split at h
  · refine ⟨by tauto, by tauto, ?_⟩
    split at h
    · simp only [Sum.inl.injEq, Prod.mk.injEq] at h
      exact Or.inl ⟨h.1.symm, by assumption, h.2.symm⟩
    · split at h
      · simp only [Sum.inl.injEq, Prod.mk.injEq] at h
        exact Or.inr ⟨_, h.1.symm, by assumption, by assumption, h.2.symm⟩
      · cases h
  · cases h

lemma recvOnce_inr_inv {s s₁ : FrameIterator} (h : recvOnce s = .inr s₁) :
    (s.path_queue = [] ∧ s₁ = s) ∨
    (∃ ev qrest t, s.path_queue = ev :: qrest ∧
      addPathTable s.id s.frame_paths ev = .ok t ∧
      s₁ = { s with path_queue := qrest, frame_paths := t }) := by
  unfold recvOnce at h
  split at h
  · simp only [Sum.inr.injEq] at h
    exact Or.inl ⟨by assumption, h.symm⟩
  · split at h
    · cases h
    · simp only [Sum.inr.injEq] at h
      exact Or.inr ⟨_, _, _, by assumption, by assumption, h.symm⟩

lemma recvOnce_inl_inv {s : FrameIterator} {r : NextRes} {s' : FrameIterator}
    (h : recvOnce s = .inl (r, s')) :
    ∃ ev qrest e, s.path_queue = ev :: qrest ∧
      addPathTable s.id s.frame_paths ev = .error e ∧ r = .err e ∧
      s' = { s with path_queue := qrest } := by
  unfold recvOnce at h
  split at h
  · cases h
  · split at h
    · simp only [Sum.inl.injEq, Prod.mk.injEq] at h
      exact ⟨_, _, _, by assumption, by assumption, h.1.symm, h.2.symm⟩
    · cases h

/-- Everything a continuing wait-loop iteration can do to the state. -/
lemma loopIter_inr_inv {step : EnvStep} {s s₁ : FrameIterator}
    (h : loopIter step s = .inr s₁) :
    s₁.id = s.id ∧ s₁.next_frame_idx = s.next_frame_idx ∧
    s₁.info_line = s.info_line ∧ s₁.est_num_frames = s.est_num_frames ∧
    s₁.observer_running = s.observer_running ∧
    s₁.disk = s.disk ++ step.arrivals ∧
    s.frame_paths.length ≤ s₁.frame_paths.length ∧
    (s.container_status = .exited → s₁.container_status = .exited) ∧
    ((s₁.container_status = s.container_status ∧ s₁.num_frames = s.num_frames) ∨
      (s.container_status ≠ .exited ∧ s₁.container_status = .exited ∧
        ∃ m, searchFrame s.info_line.data = some m ∧ s₁.num_frames = some m ∧
          s.next_frame_idx ≠ (m : Int))) := by
  unfold loopIter at h
  split at h
  · cases h
  · next sp heq =>
    have hpoll := pollStep_inr_inv heq
    rcases recvOnce_inr_inv h with ⟨hq, rfl⟩ | ⟨ev, qrest, t, hq, hok, rfl⟩ <;>
      rcases hpoll with rfl | ⟨m, hm, hne, hnext, rfl⟩
    · exact ⟨rfl, rfl, rfl, rfl, rfl, rfl, le_refl _, fun hx => hx, Or.inl ⟨rfl, rfl⟩⟩
    · exact ⟨rfl, rfl, rfl, rfl, rfl, rfl, le_refl _, fun _ => rfl,
        Or.inr ⟨hne, rfl, m, hm, rfl, hnext⟩⟩
    · exact ⟨rfl, rfl, rfl, rfl, rfl, rfl, addPathTable_ok_length hok,
        fun hx => hx, Or.inl ⟨rfl, rfl⟩⟩
    · exact ⟨rfl, rfl, rfl, rfl, rfl, rfl, addPathTable_ok_length hok,
        fun _ => rfl, Or.inr ⟨hne, rfl, m, hm, rfl, hnext⟩⟩

/-- Everything an early exit from a wait-loop iteration can be. -/
lemma loopIter_inl_inv {step : EnvStep} {s : FrameIterator} {r : NextRes}
    {s' : FrameIterator} (h : loopIter step s = .inl (r, s')) :
    s'.id = s.id ∧ s'.next_frame_idx = s.next_frame_idx ∧
    s'.info_line = s.info_line ∧ s'.est_num_frames = s.est_num_frames ∧
    (∀ q, q ∉ s.disk → q ∉ step.arrivals → q ∉ s'.disk) ∧
    s.frame_paths.length ≤ s'.frame_paths.length ∧
    (((∃ e, r = .err e) ∧ s'.observer_running = s.observer_running) ∨
      (r = .stopIteration ∧ s'.observer_running = false ∧ s'.container_status = .exited ∧
        ∃ m, s'.num_frames = some m ∧ searchFrame s.info_line.data = some m ∧
          s.next_frame_idx = (m : Int))) ∧
    (r = .err .noFrameCount → searchFrame s.info_line.data = none ∧
      s.container_status = .running) ∧
    (∀ p, r = .err (.unexpectedFramePath p) → matchIdx s.id (basename p) = none) ∧
    (∀ N, searchFrame s.info_line.data = some N →
      (s.num_frames = none ∨ s.num_frames = some N) →
      (s'.num_frames = none ∨ s'.num_frames = some N)) := by
  unfold loopIter at h
  split at h
  · next r2 heq =>
    simp only [Sum.inl.injEq] at h
    subst h
    rcases pollStep_inl_inv heq with ⟨hne, hexit, hcase | hcase⟩
    · obtain ⟨rfl, hsearch, rfl⟩ := hcase
      refine ⟨rfl, rfl, rfl, rfl, fun q hq _ => hq, le_refl _,
        Or.inl ⟨⟨_, rfl⟩, rfl⟩, fun _ => ⟨hsearch, ?_⟩, ?_, ?_⟩
      · cases hs : s.container_status
        · rfl
        · exact absurd hs hne
      · intro p hp
        cases hp
      · intro N hN hnum
        rw [hsearch] at hN
        cases hN
    · obtain ⟨m, rfl, hsearch, hnextm, rfl⟩ := hcase
      refine ⟨rfl, rfl, rfl, rfl, fun q hq _ => hq, le_refl _,
        Or.inr ⟨rfl, rfl, rfl, m, rfl, hsearch, hnextm⟩, ?_, ?_, ?_⟩
      · intro hx
        cases hx
      · intro p hp
        cases hp
      · intro N hN hnum
        right
        rw [hsearch] at hN
        rw [Option.some.inj hN]
  · next sp heq =>
    have hpoll := pollStep_inr_inv heq
    obtain ⟨ev, qrest, e, hq, herr, rfl, rfl⟩ := recvOnce_inl_inv h
    rcases hpoll with rfl | ⟨m, hm, hne, hnextm, rfl⟩
    · refine ⟨rfl, rfl, rfl, rfl, ?_, le_refl _,
        Or.inl ⟨⟨_, rfl⟩, rfl⟩, ?_, ?_, fun N hN hnum => hnum⟩
      · intro q hq1 hq2 hmem
        rcases List.mem_append.mp hmem with hx | hx
        · exact hq1 hx
        · exact hq2 hx
      · intro hx
        injection hx with hx
        subst hx
        exact absurd herr addPathTable_no_noFrameCount
      · intro p hp
        injection hp with hp
        subst hp
        obtain ⟨rfl, hmi⟩ := addPathTable_error_unexpected herr
        exact hmi
    · refine ⟨rfl, rfl, rfl, rfl, ?_, le_refl _,
        Or.inl ⟨⟨_, rfl⟩, rfl⟩, ?_, ?_, ?_⟩
      · intro q hq1 hq2 hmem
        rcases List.mem_append.mp hmem with hx | hx
        · exact hq1 hx
        · exact hq2 hx
      · intro hx
        injection hx with hx
        subst hx
        exact absurd herr addPathTable_no_noFrameCount
      · intro p hp
        injection hp with hp
        subst hp
        obtain ⟨rfl, hmi⟩ := addPathTable_error_unexpected herr
        exact hmi
      · intro N hN hnum
        right
        have hmN : m = N := by
          rw [hm] at hN
          exact Option.some.inj hN
        show some m = some N
        rw [hmN]

/-! ### Wait-loop invariants -/

lemma nextLoop_nil_none {s : FrameIterator} (h : loopExit s = none) :
    nextLoop [] s = (.timeoutExhausted, s) := by
  simp [nextLoop, h]

lemma nextLoop_nil_some {s : FrameIterator} {r : NextRes × FrameIterator}
    (h : loopExit s = some r) : nextLoop [] s = r := by
  simp [nextLoop, h]

lemma nextLoop_cons_some {s : FrameIterator} {r : NextRes × FrameIterator}
    {step : EnvStep} {rest : List EnvStep} (h : loopExit s = some r) :
    nextLoop (step :: rest) s = r := by
  simp [nextLoop, h]

lemma nextLoop_cons_inl {s : FrameIterator} {step : EnvStep} {rest : List EnvStep}
    {r : NextRes × FrameIterator} (hx : loopExit s = none) (h2 : loopIter step s = .inl r) :
    nextLoop (step :: rest) s = r := by
  simp [nextLoop, hx, h2]

lemma nextLoop_cons_inr {s s₁ : FrameIterator} {step : EnvStep} {rest : List EnvStep}
    (hx : loopExit s = none) (h2 : loopIter step s = .inr s₁) :
    nextLoop (step :: rest) s = nextLoop rest s₁ := by
  simp [nextLoop, hx, h2]

/-- fields the wait loop never touches. -/
lemma nextLoop_const (tr : List EnvStep) (s : FrameIterator) :
    (nextLoop tr s).2.id = s.id ∧ (nextLoop tr s).2.info_line = s.info_line ∧
    (nextLoop tr s).2.est_num_frames = s.est_num_frames := by
  induction tr generalizing s with
  | nil =>
    rcases h : loopExit s with _ | ⟨r, s'⟩
    · rw [nextLoop_nil_none h]
      exact ⟨rfl, rfl, rfl⟩
    · rw [nextLoop_nil_some h]
      rcases loopExit_some_inv h with ⟨_, rfl, _⟩ | ⟨p, _, _, rfl⟩
      · exact ⟨rfl, rfl, rfl⟩
      · exact ⟨rfl, rfl, rfl⟩
  | cons step rest ih =>
    rcases h : loopExit s with _ | ⟨r, s'⟩
    · rcases h2 : loopIter step s with ⟨r2, s2⟩ | s₁
      · rw [nextLoop_cons_inl h h2]
        obtain ⟨e1, _, e3, e4, _⟩ := loopIter_inl_inv h2
        exact ⟨e1, e3, e4⟩
      · rw [nextLoop_cons_inr h h2]
        obtain ⟨e1, _, e3, e4, _⟩ := loopIter_inr_inv h2
        obtain ⟨i1, i2, i3⟩ := ih s₁
        exact ⟨i1.trans e1, i2.trans e3, i3.trans e4⟩
    · rw [nextLoop_cons_some h]
      rcases loopExit_some_inv h with ⟨_, rfl, _⟩ | ⟨p, _, _, rfl⟩
      · exact ⟨rfl, rfl, rfl⟩
      · exact ⟨rfl, rfl, rfl⟩

/-- an exception propagating out of the wait loop leaves the observer as it
was: no error path stops the watcher. -/
lemma nextLoop_err_observer {tr : List EnvStep} {s : FrameIterator} {e : Err}
    (h : (nextLoop tr s).1 = .err e) :
    (nextLoop tr s).2.observer_running = s.observer_running := by
  induction tr generalizing s with
  | nil =>
    rcases hx : loopExit s with _ | ⟨r, s'⟩
    · rw [nextLoop_nil_none hx]
    · rw [nextLoop_nil_some hx] at h ⊢
      rcases loopExit_some_inv hx with ⟨_, rfl, _⟩ | ⟨p, hr, _, rfl⟩ <;> simp_all
  | cons step rest ih =>
    rcases hx : loopExit s with _ | ⟨r, s'⟩
    · rcases h2 : loopIter step s with ⟨r2, s2⟩ | s₁
      · rw [nextLoop_cons_inl hx h2] at h ⊢
        rcases (loopIter_inl_inv h2).2.2.2.2.2.2.1 with ⟨_, hobs⟩ | ⟨hr, _⟩
        · exact hobs
        · rw [hr] at h
          cases h
      · rw [nextLoop_cons_inr hx h2] at h ⊢
        rw [ih h, (loopIter_inr_inv h2).2.2.2.2.1]
    · rw [nextLoop_cons_some hx] at h ⊢
      rcases loopExit_some_inv hx with ⟨_, rfl, _⟩ | ⟨p, hr, _, rfl⟩ <;> simp_all

/-- an `Unexpected frame path` error can only come from `_add_path` on a
notification whose filename fails the run-pattern match. -/
lemma nextLoop_err_unexpected {tr : List EnvStep} {s : FrameIterator} {p : String}
    (h : (nextLoop tr s).1 = .err (.unexpectedFramePath p)) :
    matchIdx s.id (basename p) = none := by
  induction tr generalizing s with
  | nil =>
    rcases hx : loopExit s with _ | ⟨r, s'⟩
    · rw [nextLoop_nil_none hx] at h
      cases h
    · rw [nextLoop_nil_some hx] at h
      rcases loopExit_some_inv hx with ⟨hr, _, _⟩ | ⟨q, hr, _, _⟩ <;> rw [hr] at h <;> cases h
  | cons step rest ih =>
    rcases hx : loopExit s with _ | ⟨r, s'⟩
    · rcases h2 : loopIter step s with ⟨r2, s2⟩ | s₁
      · rw [nextLoop_cons_inl hx h2] at h
        exact (loopIter_inl_inv h2).2.2.2.2.2.2.2.2.1 p h
      · rw [nextLoop_cons_inr hx h2] at h
        rw [← (loopIter_inr_inv h2).1]
        exact ih h
    · rw [nextLoop_cons_some hx] at h
      rcases loopExit_some_inv hx with ⟨hr, _, _⟩ | ⟨q, hr, _, _⟩ <;> rw [hr] at h <;> cases h

/-- a `Could not extract frame count` error can only arise when the container,
still unobserved as exited, exits with a log whose trailing line lacks the
`frame=` marker. -/
lemma nextLoop_err_noFrameCount {tr : List EnvStep} {s : FrameIterator}
    (h : (nextLoop tr s).1 = .err .noFrameCount) :
    searchFrame s.info_line.data = none ∧ s.container_status = .running := by
  induction tr generalizing s with
  | nil =>
    rcases hx : loopExit s with _ | ⟨r, s'⟩
    · rw [nextLoop_nil_none hx] at h
      cases h
    · rw [nextLoop_nil_some hx] at h
      rcases loopExit_some_inv hx with ⟨hr, _, _⟩ | ⟨q, hr, _, _⟩ <;> rw [hr] at h <;> cases h
  | cons step rest ih =>
    rcases hx : loopExit s with _ | ⟨r, s'⟩
    · rcases h2 : loopIter step s with ⟨r2, s2⟩ | s₁
      · rw [nextLoop_cons_inl hx h2] at h
        exact (loopIter_inl_inv h2).2.2.2.2.2.2.2.1 h
      · rw [nextLoop_cons_inr hx h2] at h
        obtain ⟨hs, hst⟩ := ih h
        obtain ⟨_, _, hinfo, _, _, _, _, hex, _⟩ := loopIter_inr_inv h2
        rw [hinfo] at hs
        refine ⟨hs, ?_⟩
        cases hcs : s.container_status
        · rfl
        · rw [hex hcs] at hst
          cases hst
    · rw [nextLoop_cons_some hx] at h
      rcases loopExit_some_inv hx with ⟨hr, _, _⟩ | ⟨q, hr, _, _⟩ <;> rw [hr] at h <;> cases h

/-- the wait loop never signals end-of-stream while the cursor is away from
the frame count reported by the container log. -/
lemma nextLoop_no_stop {tr : List EnvStep} {s : FrameIterator} {Nv : Nat}
    (hs : searchFrame s.info_line.data = some Nv)
    (hk : s.next_frame_idx ≠ (Nv : Int)) :
    (nextLoop tr s).1 ≠ .stopIteration := by
  induction tr generalizing s with
  | nil =>
    rcases hx : loopExit s with _ | ⟨r, s'⟩
    · rw [nextLoop_nil_none hx]
      intro hc
      cases hc
    · rw [nextLoop_nil_some hx]
      rcases loopExit_some_inv hx with ⟨hr, _, _⟩ | ⟨q, hr, _, _⟩ <;> rw [hr] <;>
        intro hc <;> cases hc
  | cons step rest ih =>
    rcases hx : loopExit s with _ | ⟨r, s'⟩
    · rcases h2 : loopIter step s with ⟨r2, s2⟩ | s₁
      · rw [nextLoop_cons_inl hx h2]
        rcases (loopIter_inl_inv h2).2.2.2.2.2.2.1 with ⟨⟨e, he⟩, _⟩ | ⟨hr, _, _, m, _, hm, hnm⟩
        · rw [he]
          intro hc
          cases hc
        · rw [hs] at hm
          rw [Option.some.inj hm] at hk
          exact absurd hnm hk
      · rw [nextLoop_cons_inr hx h2]
        obtain ⟨_, hnext, hinfo, _⟩ := loopIter_inr_inv h2
        refine ih ?_ ?_
        · rw [hinfo]
          exact hs
        · rw [hnext]
          exact hk
    · rw [nextLoop_cons_some hx]
      rcases loopExit_some_inv hx with ⟨hr, _, _⟩ | ⟨q, hr, _, _⟩ <;> rw [hr] <;>
        intro hc <;> cases hc

/-- what must be true after the wait loop signals end-of-stream. -/
lemma nextLoop_stop_inv {tr : List EnvStep} {s : FrameIterator}
    (h : (nextLoop tr s).1 = .stopIteration) :
    (nextLoop tr s).2.observer_running = false ∧
    (nextLoop tr s).2.container_status = .exited ∧
    (nextLoop tr s).2.next_frame_idx = s.next_frame_idx ∧
    s.frame_paths.length ≤ (nextLoop tr s).2.frame_paths.length ∧
    ∃ m, (nextLoop tr s).2.num_frames = some m ∧
      (nextLoop tr s).2.next_frame_idx = (m : Int) := by
  induction tr generalizing s with
  | nil =>
    rcases hx : loopExit s with _ | ⟨r, s'⟩
    · rw [nextLoop_nil_none hx] at h
      cases h
    · rw [nextLoop_nil_some hx] at h
      rcases loopExit_some_inv hx with ⟨hr, _, _⟩ | ⟨q, hr, _, _⟩ <;> rw [hr] at h <;> cases h
  | cons step rest ih =>
    rcases hx : loopExit s with _ | ⟨r, s'⟩
    · rcases h2 : loopIter step s with ⟨r2, s2⟩ | s₁
      · rw [nextLoop_cons_inl hx h2] at h ⊢
        rcases (loopIter_inl_inv h2).2.2.2.2.2.2.1 with ⟨⟨e, he⟩, _⟩ | hstop
        · rw [he] at h
          cases h
        · obtain ⟨_, hobs, hexit, m, hnum, _, hm⟩ := hstop
          obtain ⟨_, hnext, _, _, _, hlen, _⟩ := loopIter_inl_inv h2
          exact ⟨hobs, hexit, hnext, hlen, m, hnum, hnext.trans hm⟩
      · rw [nextLoop_cons_inr hx h2] at h ⊢
        obtain ⟨o1, o2, o3, o4, o5⟩ := ih h
        obtain ⟨_, hnext, _, _, _, _, hlen, _⟩ := loopIter_inr_inv h2
        exact ⟨o1, o2, o3.trans hnext, hlen.trans o4, o5⟩
    · rw [nextLoop_cons_some hx] at h
      rcases loopExit_some_inv hx with ⟨hr, _, _⟩ | ⟨q, hr, _, _⟩ <;> rw [hr] at h <;> cases h

/-- invariant: once the authoritative count is recorded, the container has
been observed as exited — preserved by the wait loop. -/
lemma nextLoop_WF {tr : List EnvStep} {s : FrameIterator}
    (hwf : ∀ n, s.num_frames = some n → s.container_status = .exited) :
    ∀ n, (nextLoop tr s).2.num_frames = some n →
      (nextLoop tr s).2.container_status = .exited := by
  induction tr generalizing s with
  | nil =>
    rcases hx : loopExit s with _ | ⟨r, s'⟩
    · rw [nextLoop_nil_none hx]
      exact hwf
    · rw [nextLoop_nil_some hx]
      rcases loopExit_some_inv hx with ⟨_, rfl, _⟩ | ⟨q, _, _, rfl⟩
      · exact hwf
      · exact hwf
  | cons step rest ih =>
    rcases hx : loopExit s with _ | ⟨r, s'⟩
    · rcases h2 : loopIter step s with ⟨r2, s2⟩ | s₁
      · rw [nextLoop_cons_inl hx h2]
        rcases (loopIter_inl_inv h2).2.2.2.2.2.2.1 with ⟨⟨e, he⟩, _⟩ | ⟨_, _, hexit, _⟩
        · -- error exits: check each shape via the iteration structure
          intro n hn
          unfold loopIter at h2
          split at h2
          · next heq =>
            simp only [Sum.inl.injEq] at h2
            subst h2
            rcases pollStep_inl_inv heq with ⟨_, _, hc | hc⟩
            · obtain ⟨_, _, rfl⟩ := hc
              rfl
            · obtain ⟨m, _, _, _, rfl⟩ := hc
              rfl
          · next sp heq =>
            obtain ⟨ev, qrest, e2, hq, herr, rfl, rfl⟩ := recvOnce_inl_inv h2
            rcases pollStep_inr_inv heq with rfl | ⟨m, _, _, _, rfl⟩
            · exact hwf n hn
            · rfl
        · intro n _
          exact hexit
      · rw [nextLoop_cons_inr hx h2]
        refine ih ?_
        intro n hn
        rcases (loopIter_inr_inv h2).2.2.2.2.2.2.2.2 with ⟨hst, hnum⟩ | ⟨_, hexit, _⟩
        · rw [hst]
          rw [hnum] at hn
          exact hwf n hn
        · exact hexit
    · rw [nextLoop_cons_some hx]
      rcases loopExit_some_inv hx with ⟨_, rfl, _⟩ | ⟨q, _, _, rfl⟩
      · exact hwf
      · exact hwf

/-- the cursor stays within the table through the wait loop. -/
lemma nextLoop_next_le {tr : List EnvStep} {s : FrameIterator}
    (h0 : 0 ≤ s.next_frame_idx)
    (hle : s.next_frame_idx ≤ (s.frame_paths.length : Int)) :
    0 ≤ (nextLoop tr s).2.next_frame_idx ∧
    (nextLoop tr s).2.next_frame_idx ≤ ((nextLoop tr s).2.frame_paths.length : Int) := by
  induction tr generalizing s with
  | nil =>
    rcases hx : loopExit s with _ | ⟨r, s'⟩
    · rw [nextLoop_nil_none hx]
      exact ⟨h0, hle⟩
    · rw [nextLoop_nil_some hx]
      rcases loopExit_some_inv hx with ⟨_, rfl, _⟩ | ⟨q, _, hslot, rfl⟩
      · exact ⟨h0, hle⟩
      · have hlt : s.next_frame_idx.toNat < s.frame_paths.length := by
          rcases List.getElem?_eq_some.mp hslot with ⟨hl, _⟩
          exact hl
        constructor
        · show (0 : Int) ≤ s.next_frame_idx + 1
          omega
        · show s.next_frame_idx + 1 ≤ (s.frame_paths.length : Int)
          omega
  | cons step rest ih =>
    rcases hx : loopExit s with _ | ⟨r, s'⟩
    · rcases h2 : loopIter step s with ⟨r2, s2⟩ | s₁
      · rw [nextLoop_cons_inl hx h2]
        obtain ⟨_, hnext, _, _, _, hlen, _⟩ := loopIter_inl_inv h2
        constructor
        · show (0 : Int) ≤ s2.next_frame_idx
          omega
        · show s2.next_frame_idx ≤ (s2.frame_paths.length : Int)
          omega
      · rw [nextLoop_cons_inr hx h2]
        obtain ⟨_, hnext, _, _, _, _, hlen, _⟩ := loopIter_inr_inv h2
        refine ih ?_ ?_
        · rw [hnext]
          exact h0
        · rw [hnext]
          have : (s.frame_paths.length : Int) ≤ (s₁.frame_paths.length : Int) := by
            exact_mod_cast hlen
          omega
    · rw [nextLoop_cons_some hx]
      rcases loopExit_some_inv hx with ⟨_, rfl, _⟩ | ⟨q, _, hslot, rfl⟩
      · exact ⟨h0, hle⟩
      · have hlt : s.next_frame_idx.toNat < s.frame_paths.length := by
          rcases List.getElem?_eq_some.mp hslot with ⟨hl, _⟩
          exact hl
        constructor
        · show (0 : Int) ≤ s.next_frame_idx + 1
          omega
        · show s.next_frame_idx + 1 ≤ (s.frame_paths.length : Int)
          omega

/-- a file absent from the scratch directory and not written during the wait
stays absent: the wait loop never creates files on its own. -/
lemma nextLoop_disk {tr : List EnvStep} {s : FrameIterator} {q : String}
    (hq : q ∉ s.disk) (ha : ∀ st ∈ tr, q ∉ st.arrivals) :
    q ∉ (nextLoop tr s).2.disk := by
  induction tr generalizing s with
  | nil =>
    rcases hx : loopExit s with _ | ⟨r, s'⟩
    · rw [nextLoop_nil_none hx]
      exact hq
    · rw [nextLoop_nil_some hx]
      rcases loopExit_some_inv hx with ⟨_, rfl, _⟩ | ⟨p, _, _, rfl⟩
      · exact hq
      · exact hq
  | cons step rest ih =>
    have hstep : q ∉ step.arrivals := ha step (List.mem_cons_self step rest)
    have hrest : ∀ st ∈ rest, q ∉ st.arrivals :=
      fun st hst => ha st (List.mem_cons_of_mem step hst)
    rcases hx : loopExit s with _ | ⟨r, s'⟩
    · rcases h2 : loopIter step s with ⟨r2, s2⟩ | s₁
      · rw [nextLoop_cons_inl hx h2]
        exact (loopIter_inl_inv h2).2.2.2.2.1 q hq hstep
      · rw [nextLoop_cons_inr hx h2]
        refine ih ?_ hrest
        rw [(loopIter_inr_inv h2).2.2.2.2.2.1]
        intro hmem
        rcases List.mem_append.mp hmem with hx1 | hx1
        · exact hq hx1
        · exact hstep hx1
    · rw [nextLoop_cons_some hx]
      rcases loopExit_some_inv hx with ⟨_, rfl, _⟩ | ⟨p, _, _, rfl⟩
      · exact hq
      · exact hq

/-- a frame returned by the wait loop is the one the cursor pointed at, read
from its table slot, with the cursor advanced by one. -/
lemma nextLoop_frame_inv {tr : List EnvStep} {s s' : FrameIterator} {k : Nat} {p : String}
    (h : nextLoop tr s = (.frame k p, s')) :
    k = s.next_frame_idx.toNat ∧ s'.next_frame_idx = s.next_frame_idx + 1 ∧
    s'.frame_paths[k]? = some (some p) ∧
    s.frame_paths.length ≤ s'.frame_paths.length := by
  induction tr generalizing s with
  | nil =>
    rcases hx : loopExit s with _ | ⟨r, s'₀⟩
    · rw [nextLoop_nil_none hx] at h
      injection h with h1 h2
      cases h1
    · rw [nextLoop_nil_some hx] at h
      rcases loopExit_some_inv hx with ⟨rfl, rfl, _⟩ | ⟨q, rfl, hslot, rfl⟩
      · injection h with h1 h2
        cases h1
      · injection h with h1 h2
        injection h1 with hk hp
        subst hk
        subst hp
        subst h2
        exact ⟨rfl, rfl, hslot, le_refl _⟩
  | cons step rest ih =>
    rcases hx : loopExit s with _ | ⟨r, s'₀⟩
    · rcases h2 : loopIter step s with ⟨r2, s2⟩ | s₁
      · rw [nextLoop_cons_inl hx h2] at h
        rcases (loopIter_inl_inv h2).2.2.2.2.2.2.1 with ⟨⟨e, he⟩, _⟩ | ⟨hr, _⟩
        · subst he
          injection h with h1 h2
          cases h1
        · subst hr
          injection h with h1 h2
          cases h1
      · rw [nextLoop_cons_inr hx h2] at h
        obtain ⟨i1, i2, i3, i4⟩ := ih h
        obtain ⟨_, hnext, _, _, _, _, hlen, _⟩ := loopIter_inr_inv h2
        rw [hnext] at i1 i2
        exact ⟨i1, i2, i3, hlen.trans i4⟩
    · rw [nextLoop_cons_some hx] at h
      rcases loopExit_some_inv hx with ⟨rfl, rfl, _⟩ | ⟨q, rfl, hslot, rfl⟩
      · injection h with h1 h2
        cases h1
      · injection h with h1 h2
        injection h1 with hk hp
        subst hk
        subst hp
        subst h2
        exact ⟨rfl, rfl, hslot, le_refl _⟩

/-! ### Concrete wait-loop computations -/

lemma arrive_timeout (s : FrameIterator) : arrive timeoutStep s = s := by
  cases s
  simp [arrive, timeoutStep]

/-- an iteration in which nothing happens leaves the state unchanged. -/
lemma loopIter_timeout {s : FrameIterator} (hq : s.path_queue = []) :
    loopIter timeoutStep s = .inr s := by
  have hpoll : pollStep timeoutStep s = .inr s := by
    simp [pollStep, timeoutStep]
  rw [loopIter, hpoll]
  show recvOnce (arrive timeoutStep s) = Sum.inr s
  rw [arrive_timeout]
  simp [recvOnce, hq]

/-- empty-handed wait iterations (timeouts) are skipped by the loop. -/
lemma nextLoop_timeouts {s : FrameIterator} (hq : s.path_queue = [])
    (hslot : s.frame_paths[s.next_frame_idx.toNat]? = some none) :
    ∀ (m : Nat) (tr : List EnvStep), nextLoop (timeoutSteps m ++ tr) s = nextLoop tr s := by
  intro m tr
  induction m with
  | zero => rfl
  | succ m ih =>
    have hsplit : timeoutSteps (m + 1) ++ tr = timeoutStep :: (timeoutSteps m ++ tr) := by
      simp [timeoutSteps, List.replicate_succ]
    rw [hsplit, nextLoop_cons_inr (loopExit_none hslot) (loopIter_timeout hq), ih]

/-- once the missing notification arrives, the wait loop stores it and the
very next condition check delivers the frame at the cursor. -/
lemma nextLoop_arrival {s : FrameIterator} {k : Nat} {tr : List EnvStep}
    (hid : goodId s.id) (hq : s.path_queue = [])
    (hk : s.next_frame_idx = (k : Int))
    (hslot : s.frame_paths[k]? = some none) :
    ∃ s', nextLoop (⟨false, [fname s.id (k + 1)]⟩ :: tr) s =
        (.frame k (fname s.id (k + 1)), s') ∧
      s'.next_frame_idx = (k : Int) + 1 ∧ s'.num_frames = s.num_frames ∧
      s'.container_status = s.container_status ∧
      s'.observer_running = s.observer_running := by
  have htoNat : s.next_frame_idx.toNat = k := by
    rw [hk]
    exact Int.toNat_natCast k
  have hx : loopExit s = none := loopExit_none (by rw [htoNat]; exact hslot)
  have hadd : addPathTable s.id s.frame_paths (fname s.id (k + 1)) =
      .ok (setSlot s.frame_paths k (fname s.id (k + 1))) := by
    have := @addPathTable_fname s.id hid s.frame_paths (k + 1) (by omega)
    simpa using this
  have h2 : loopIter ⟨false, [fname s.id (k + 1)]⟩ s = .inr
      { s with path_queue := [],
               frame_paths := setSlot s.frame_paths k (fname s.id (k + 1)),
               disk := s.disk ++ [fname s.id (k + 1)] } := by
    have hpoll : pollStep ⟨false, [fname s.id (k + 1)]⟩ s = .inr s := by
      simp [pollStep]
    rw [loopIter, hpoll]
    simp [arrive, recvOnce, hq, hadd]
  have hslot2 : (setSlot s.frame_paths k (fname s.id (k + 1)))[s.next_frame_idx.toNat]? =
      some (some (fname s.id (k + 1))) := by
    rw [htoNat]
    exact getElem?_setSlot_self _ _ _
  rw [nextLoop_cons_inr hx h2]
  have hx2 : loopExit ({ s with
                  path_queue := [],
                  frame_paths := setSlot s.frame_paths k (fname s.id (k + 1)),
                  disk := s.disk ++ [fname s.id (k + 1)] }) =
      some (.frame s.next_frame_idx.toNat (fname s.id (k + 1)),
        { s with next_frame_idx := s.next_frame_idx + 1,
                 path_queue := [],
                 frame_paths := setSlot s.frame_paths k (fname s.id (k + 1)),
                 disk := s.disk ++ [fname s.id (k + 1)] }) :=
    loopExit_frame hslot2
  refine ⟨{ s with
            next_frame_idx := s.next_frame_idx + 1,
            path_queue := [],
            frame_paths := setSlot s.frame_paths k (fname s.id (k + 1)),
            disk := s.disk ++ [fname s.id (k + 1)] }, ?_, ?_, rfl, rfl, rfl⟩
  · cases tr with
    | nil =>
      rw [nextLoop_nil_some hx2, htoNat]
    | cons t ts =>
      rw [nextLoop_cons_some hx2, htoNat]
  · show s.next_frame_idx + 1 = (k : Int) + 1
    rw [hk]

/-! ### `__next__` plumbing -/

/-- the deletion step of video.py lines 132-139, restricted to its effect on
the scratch directory: `os.remove(str(slot))` with `FileNotFoundError`
swallowed. -/
def delPrev (s : FrameIterator) (v : Option String) : FrameIterator :=
  { s with disk := s.disk.filter (fun q => q ≠ strOfSlot v) }

/-- a first pull on a never-started iterator behaves like a pull on the
started one. -/
lemma nextFrame_start {s : FrameIterator} (h : s.next_frame_idx = -1)
    (tr : List EnvStep) : nextFrame s tr = nextFrame (startExtraction s) tr := by
  have h2 : (startExtraction s).next_frame_idx = -1 ↔ False := by
    simp [startExtraction]
  simp only [nextFrame, h, if_pos rfl, h2, if_false]
  rfl

/-- `__next__` at the authoritative bound: the previously delivered file is
deleted, the observer stopped, `StopIteration` raised, and the cursor, table
and count are untouched. -/
lemma nextFrame_exhausted {s : FrameIterator} {n : Nat} (hnum : s.num_frames = some n)
    (hnext : s.next_frame_idx = (n : Int))
    (hlen : (n : Int) ≤ (s.frame_paths.length : Int)) (tr : List EnvStep) :
    ∃ d, nextFrame s tr = (.stopIteration,
      { s with observer_running := false, disk := d }) := by
  have hne : ¬ (s.next_frame_idx = -1) := by
    rw [hnext]
    omega
  rcases Nat.eq_zero_or_pos n with hz | hpos
  · subst hz
    have hneg : ¬ (0 ≤ s.next_frame_idx - 1) := by
      rw [hnext]
      omega
    have hAB : atBound s = true := by
      simp [atBound, hnum, hnext]
    refine ⟨s.disk, ?_⟩
    simp only [nextFrame, if_neg hne, if_neg hneg]
    rw [nextBody, if_pos hAB]
  · have hpos2 : 0 ≤ s.next_frame_idx - 1 := by
      rw [hnext]
      omega
    have hidx : (s.next_frame_idx - 1).toNat < s.frame_paths.length := by
      omega
    have hv : s.frame_paths[(s.next_frame_idx - 1).toNat]? =
        some (slotD s.frame_paths (s.next_frame_idx - 1).toNat) :=
      getElem?_of_slotD hidx
    have hAB : atBound (delPrev s (slotD s.frame_paths (s.next_frame_idx - 1).toNat)) = true := by
      simp [atBound, delPrev, hnum, hnext]
    refine ⟨(delPrev s (slotD s.frame_paths (s.next_frame_idx - 1).toNat)).disk, ?_⟩
    simp only [nextFrame, if_neg hne, if_pos hpos2, hv]
    show nextBody (delPrev s (slotD s.frame_paths (s.next_frame_idx - 1).toNat)) tr =
      (.stopIteration, { delPrev s (slotD s.frame_paths (s.next_frame_idx - 1).toNat) with
        observer_running := false })
    rw [nextBody, if_pos hAB]

/-- `__next__` below the bound with a slot available for the cursor reduces to
the wait loop on the state after the deletion step (the padding of lines
146-150 does not fire when the table already reaches past the cursor). -/
lemma nextFrame_to_loop {s : FrameIterator} {k : Nat}
    (hnext : s.next_frame_idx = (k : Int)) (hk : 1 ≤ k)
    (hab : atBound s = false)
    (hlen : (k : Int) + 1 ≤ (s.frame_paths.length : Int)) (tr : List EnvStep) :
    nextFrame s tr = nextLoop tr (delPrev s (slotD s.frame_paths (k - 1))) := by
  have hne : ¬ (s.next_frame_idx = -1) := by
    rw [hnext]
    omega
  have hpos2 : 0 ≤ s.next_frame_idx - 1 := by
    rw [hnext]
    omega
  have htn : (s.next_frame_idx - 1).toNat = k - 1 := by
    rw [hnext]
    omega
  have hidx : (s.next_frame_idx - 1).toNat < s.frame_paths.length := by
    omega
  have hv : s.frame_paths[(s.next_frame_idx - 1).toNat]? =
      some (slotD s.frame_paths (k - 1)) := by
    rw [getElem?_of_slotD hidx, htn]
  have hab2 : atBound (delPrev s (slotD s.frame_paths (k - 1))) = false := by
    simpa [atBound, delPrev] using hab
  have hpc : padCond (delPrev s (slotD s.frame_paths (k - 1))) = false := by
    unfold padCond delPrev
    have hno : ¬ ((s.frame_paths.length : Int) < s.next_frame_idx + 1) := by
      rw [hnext]
      omega
    simp only []
    rw [decide_eq_false hno]
    exact Bool.false_and _
  simp only [nextFrame, if_neg hne, if_pos hpos2, hv]
  show nextBody (delPrev s (slotD s.frame_paths (k - 1))) tr =
    nextLoop tr (delPrev s (slotD s.frame_paths (k - 1)))
  rw [nextBody, if_neg (by rw [hab2]; exact Bool.false_ne_true),
    if_neg (by rw [hpc]; exact Bool.false_ne_true)]

/-- as `nextFrame_to_loop`, for a cursor at 0 (no file to delete yet). -/
lemma nextFrame_to_loop_zero {s : FrameIterator}
    (hnext : s.next_frame_idx = 0)
    (hab : atBound s = false)
    (hlen : (1 : Int) ≤ (s.frame_paths.length : Int)) (tr : List EnvStep) :
    nextFrame s tr = nextLoop tr s := by
  have hne : ¬ (s.next_frame_idx = -1) := by
    rw [hnext]
    omega
  have hneg : ¬ (0 ≤ s.next_frame_idx - 1) := by
    rw [hnext]
    omega
  have hpc : padCond s = false := by
    unfold padCond
    have hno : ¬ ((s.frame_paths.length : Int) < s.next_frame_idx + 1) := by
      rw [hnext]
      omega
    rw [decide_eq_false hno]
    exact Bool.false_and _
  simp only [nextFrame, if_neg hne, if_neg hneg]
  rw [nextBody, if_neg (by rw [hab]; exact Bool.false_ne_true),
    if_neg (by rw [hpc]; exact Bool.false_ne_true)]

/-! ### Claim C10 -/

/-- iterate `__next__` over a list of per-call environment traces and check
that every call raises `StopIteration` leaving the cursor unchanged. -/
def iterStops (s : FrameIterator) : List (List EnvStep) → Bool
  | [] => true
  | t :: ts =>
    match nextFrame s t with
    | (.stopIteration, s') =>
      decide (s'.next_frame_idx = s.next_frame_idx) && iterStops s' ts
    | _ => false

/-- C10: exhaustion is an absorbing state of the public interface: once the
cursor has reached the authoritative bound `num_frames = N` (as it is when a
pull has signalled end-of-stream), every subsequent call to
`FrameIterator.__next__` again raises `StopIteration` without error, for any
environment behaviour, and leaves the cursor unchanged at the bound. -/
theorem C10_exhaustion_absorbing (s : FrameIterator) (N : Nat)
    (hnum : s.num_frames = some N) (hnext : s.next_frame_idx = (N : Int))
    (hlen : (N : Int) ≤ (s.frame_paths.length : Int)) :
    ∀ tss : List (List EnvStep), iterStops s tss = true := by
  intro tss
  induction tss generalizing s with
  | nil => rfl
  | cons t ts ih =>
    obtain ⟨d, hd⟩ := nextFrame_exhausted hnum hnext hlen t
    have h2 := ih ({ s with observer_running := false, disk := d }) hnum hnext hlen
    simp [iterStops, hd, h2]

/-- a concrete exhausted two-frame iterator. -/
def exhaustedEx : FrameIterator :=
  { id := "ab", next_frame_idx := 2,
    frame_paths := [some (fname "ab" 1), some (fname "ab" 2)],
    path_queue := [], container_status := .exited, num_frames := some 2,
    observer_running := false, info_line := "frame=    2 fps=0.0",
    est_num_frames := none, disk := [] }

theorem C10_exhaustion_absorbing_witness :
    iterStops exhaustedEx [[], [⟨true, []⟩], timeoutSteps 3] = true :=
  C10_exhaustion_absorbing exhaustedEx 2 rfl rfl (by decide) _

/-! ### The estimate and the scratch directory are never read -/

/-- override the two fields no sequencing decision ever reads: the advisory
estimate and the scratch-directory contents. -/
def withED (s : FrameIterator) (e : Option Nat) (d : List String) : FrameIterator :=
  { s with est_num_frames := e, disk := d }

lemma pollStep_withED (step : EnvStep) (s : FrameIterator) (e : Option Nat)
    (d : List String) :
    pollStep step (withED s e d) =
      (match pollStep step s with
       | .inl (r, s') => .inl (r, withED s' e d)
       | .inr s₁ => .inr (withED s₁ e d)) := by
  rw [pollStep, pollStep]
  simp only [withED]
  by_cases hc : s.container_status ≠ ContainerStatus.exited ∧ step.exitsNow = true
  · rw [if_pos hc, if_pos hc]
    rcases hf : searchFrame s.info_line.data with _ | m
    · rfl
    · by_cases hm : s.next_frame_idx = (m : Int)
      · simp [hm]
      · simp [hm]
  · rw [if_neg hc, if_neg hc]

lemma recvOnce_withED (s : FrameIterator) (e : Option Nat) (d : List String) :
    recvOnce (withED s e d) =
      (match recvOnce s with
       | .inl (r, s') => .inl (r, withED s' e d)
       | .inr s₁ => .inr (withED s₁ e d)) := by
  rw [recvOnce, recvOnce]
  simp only [withED]
  rcases hq : s.path_queue with _ | ⟨ev, qrest⟩
  · simp [withED, hq]
  · rcases ha : addPathTable s.id s.frame_paths ev with e2 | t
    · simp [ha]
    · simp [ha]

/-- the wait loop never reads the estimate or the scratch directory: the
result and all other state components are unchanged when they are overridden. -/
lemma nextLoop_indep (e : Option Nat) :
    ∀ (tr : List EnvStep) (s : FrameIterator) (d : List String),
    ∃ d', nextLoop tr (withED s e d) =
      ((nextLoop tr s).1, withED (nextLoop tr s).2 e d') := by
  intro tr
  induction tr with
  | nil =>
    intro s d
    refine ⟨d, ?_⟩
    rcases hx : s.frame_paths[s.next_frame_idx.toNat]? with _ | v
    · have h1 : loopExit (withED s e d) = some (.err .indexError, withED s e d) := by
        simp [loopExit, withED, hx]
      have h2 : loopExit s = some (.err .indexError, s) := by
        simp [loopExit, hx]
      rw [nextLoop_nil_some h1, nextLoop_nil_some h2]
    · cases v with
      | none =>
        have h1 : loopExit (withED s e d) = none := by
          simp [loopExit, withED, hx]
        rw [nextLoop_nil_none h1, nextLoop_nil_none (loopExit_none hx)]
      | some p =>
        have h2 : loopExit s = some (.frame s.next_frame_idx.toNat p,
            { s with next_frame_idx := s.next_frame_idx + 1 }) := loopExit_frame hx
        have h1 : loopExit (withED s e d) = some (.frame s.next_frame_idx.toNat p,
            withED ({ s with next_frame_idx := s.next_frame_idx + 1 }) e d) := by
          simp [loopExit, withED, hx]
        rw [nextLoop_nil_some h1, nextLoop_nil_some h2]
  | cons step rest ih =>
    intro s d
    rcases hx : s.frame_paths[s.next_frame_idx.toNat]? with _ | v
    · refine ⟨d, ?_⟩
      have h1 : loopExit (withED s e d) = some (.err .indexError, withED s e d) := by
        simp [loopExit, withED, hx]
      have h2 : loopExit s = some (.err .indexError, s) := by
        simp [loopExit, hx]
      rw [nextLoop_cons_some h1, nextLoop_cons_some h2]
    · cases v with
      | some p =>
        refine ⟨d, ?_⟩
        have h2 : loopExit s = some (.frame s.next_frame_idx.toNat p,
            { s with next_frame_idx := s.next_frame_idx + 1 }) := loopExit_frame hx
        have h1 : loopExit (withED s e d) = some (.frame s.next_frame_idx.toNat p,
            withED ({ s with next_frame_idx := s.next_frame_idx + 1 }) e d) := by
          simp [loopExit, withED, hx]
        rw [nextLoop_cons_some h1, nextLoop_cons_some h2]
      | none =>
        have h2 : loopExit s = none := loopExit_none hx
        have h1 : loopExit (withED s e d) = none := by
          simp [loopExit, withED, hx]
        rcases hp : pollStep step s with ⟨r, s'⟩ | s₁
        · have hl2 : loopIter step s = .inl (r, s') := by
            rw [loopIter, hp]
          have hl1 : loopIter step (withED s e d) = .inl (r, withED s' e d) := by
            rw [loopIter, pollStep_withED, hp]
          rw [nextLoop_cons_inl h1 hl1, nextLoop_cons_inl h2 hl2]
          exact ⟨d, rfl⟩
        · rcases hr : recvOnce (arrive step s₁) with ⟨r, s'⟩ | s₂
          · have hl2 : loopIter step s = .inl (r, s') := by
              rw [loopIter, hp]
              exact hr
            have hl1 : loopIter step (withED s e d) =
                .inl (r, withED s' e (d ++ step.arrivals)) := by
              rw [loopIter, pollStep_withED, hp]
              show recvOnce (withED (arrive step s₁) e (d ++ step.arrivals)) = _
              rw [recvOnce_withED, hr]
            rw [nextLoop_cons_inl h1 hl1, nextLoop_cons_inl h2 hl2]
            exact ⟨d ++ step.arrivals, rfl⟩
          · have hl2 : loopIter step s = .inr s₂ := by
              rw [loopIter, hp]
              exact hr
            have hl1 : loopIter step (withED s e d) =
                .inr (withED s₂ e (d ++ step.arrivals)) := by
              rw [loopIter, pollStep_withED, hp]
              show recvOnce (withED (arrive step s₁) e (d ++ step.arrivals)) = _
              rw [recvOnce_withED, hr]
            obtain ⟨d', hd⟩ := ih s₂ (d ++ step.arrivals)
            rw [nextLoop_cons_inr h1 hl1, nextLoop_cons_inr h2 hl2, hd]
            exact ⟨d', rfl⟩

lemma atBound_withED (s : FrameIterator) (e : Option Nat) (d : List String) :
    atBound (withED s e d) = atBound s := rfl

lemma padCond_withED (s : FrameIterator) (e : Option Nat) (d : List String) :
    padCond (withED s e d) = padCond s := rfl

lemma nextBody_indep (s : FrameIterator) (e : Option Nat) (d : List String)
    (tr : List EnvStep) :
    ∃ d', nextBody (withED s e d) tr =
      ((nextBody s tr).1, withED (nextBody s tr).2 e d') := by
  rw [nextBody, nextBody, atBound_withED, padCond_withED]
  simp only [withED]
  by_cases hab : atBound s = true
  · rw [if_pos hab, if_pos hab]
    exact ⟨d, rfl⟩
  · rw [if_neg hab, if_neg hab]
    by_cases hpc : padCond s = true
    · rw [if_pos hpc, if_pos hpc]
      by_cases hassert : (s.frame_paths.length : Int) = s.next_frame_idx
      · rw [if_pos hassert, if_pos hassert]
        obtain ⟨d', hd⟩ := nextLoop_indep e tr ({ s with frame_paths := s.frame_paths ++ [none] }) d
        simp only [withED] at hd
        rw [hd]
        exact ⟨d', rfl⟩
      · rw [if_neg hassert, if_neg hassert]
        exact ⟨d, rfl⟩
    · rw [if_neg hpc, if_neg hpc]
      obtain ⟨d', hd⟩ := nextLoop_indep e tr s d
      simp only [withED] at hd
      rw [hd]
      exact ⟨d', rfl⟩

/-- `__next__` on a started iterator never reads the estimate or the scratch
directory. -/
lemma nextFrame_indep_ns (s : FrameIterator) (hs : ¬ s.next_frame_idx = -1)
    (e : Option Nat) (d : List String) (tr : List EnvStep) :
    ∃ d', nextFrame (withED s e d) tr =
      ((nextFrame s tr).1, withED (nextFrame s tr).2 e d') := by
  rw [nextFrame, nextFrame]
  simp only [withED, if_neg hs]
  by_cases hdel : 0 ≤ s.next_frame_idx - 1
  · simp only [if_pos hdel]
    rcases hv : s.frame_paths[(s.next_frame_idx - 1).toNat]? with _ | v
    · refine ⟨d, ?_⟩
      rfl
    · exact nextBody_indep
        ({ s with disk := s.disk.filter (fun q => q ≠ strOfSlot v) }) e
        (d.filter (fun q => q ≠ strOfSlot v)) tr
  · simp only [if_neg hdel]
    exact nextBody_indep s e d tr

/-- `__next__` never reads the estimate or the scratch directory. -/
lemma nextFrame_indep (s : FrameIterator) (e : Option Nat) (d : List String)
    (tr : List EnvStep) :
    ∃ d', nextFrame (withED s e d) tr =
      ((nextFrame s tr).1, withED (nextFrame s tr).2 e d') := by
  by_cases hstart : s.next_frame_idx = -1
  · rw [nextFrame_start (show (withED s e d).next_frame_idx = -1 from hstart) tr,
      nextFrame_start hstart tr]
    exact nextFrame_indep_ns (startExtraction s) (by simp [startExtraction]) e d tr
  · exact nextFrame_indep_ns s hstart e d tr

/-! ### More `__next__` lifts -/

lemma nextBody_err_observer {s : FrameIterator} {tr : List EnvStep} {e : Err}
    (h : (nextBody s tr).1 = .err e) :
    (nextBody s tr).2.observer_running = s.observer_running := by
  rw [nextBody] at h ⊢
  by_cases hab : atBound s = true
  · rw [if_pos hab] at h
    cases h
  · rw [if_neg hab] at h ⊢
    by_cases hpc : padCond s = true
    · rw [if_pos hpc] at h ⊢
      by_cases hassert : (s.frame_paths.length : Int) = s.next_frame_idx
      · rw [if_pos hassert] at h ⊢
        exact nextLoop_err_observer h
      · rw [if_neg hassert] at h ⊢
    · rw [if_neg hpc] at h ⊢
      exact nextLoop_err_observer h

/-- pulling with the cursor at 0: nothing to delete. -/
lemma nextFrame_zero_red {s : FrameIterator} (h0 : s.next_frame_idx = 0)
    (tr : List EnvStep) : nextFrame s tr = nextBody s tr := by
  have hne : ¬ (s.next_frame_idx = -1) := by
    rw [h0]
    omega
  have hneg : ¬ (0 ≤ s.next_frame_idx - 1) := by
    rw [h0]
    omega
  rw [nextFrame]
  simp only [if_neg hne, if_neg hneg]

/-- the error paths of `__next__` never stop the watcher: after an error the
observer is exactly as it was (and running, if this pull lazily started it). -/
lemma nextFrame_err_observer {s : FrameIterator} {tr : List EnvStep} {e : Err}
    (h : (nextFrame s tr).1 = .err e) :
    (nextFrame s tr).2.observer_running =
      (if s.next_frame_idx = -1 then true else s.observer_running) := by
  by_cases hstart : s.next_frame_idx = -1
  · rw [if_pos hstart]
    rw [nextFrame_start hstart] at h ⊢
    rw [nextFrame_zero_red (show (startExtraction s).next_frame_idx = 0 from rfl)] at h ⊢
    exact nextBody_err_observer h
  · rw [if_neg hstart]
    by_cases hdel : 0 ≤ s.next_frame_idx - 1
    · rcases hv : s.frame_paths[(s.next_frame_idx - 1).toNat]? with _ | v
      · have hred : nextFrame s tr = (.err .indexError, s) := by
          rw [nextFrame]
          simp only [if_neg hstart, if_pos hdel, hv]
        rw [hred]
      · have hred : nextFrame s tr = nextBody (delPrev s v) tr := by
          rw [nextFrame]
          simp only [if_neg hstart, if_pos hdel, hv]
          rfl
        rw [hred] at h ⊢
        exact nextBody_err_observer h
    · have hred : nextFrame s tr = nextBody s tr := by
        rw [nextFrame]
        simp only [if_neg hstart, if_neg hdel]
      rw [hred] at h ⊢
      exact nextBody_err_observer h

lemma nextBody_frame_inv {s s' : FrameIterator} {tr : List EnvStep} {k : Nat} {p : String}
    (h : nextBody s tr = (.frame k p, s')) :
    k = s.next_frame_idx.toNat ∧ s'.next_frame_idx = s.next_frame_idx + 1 ∧
    s'.frame_paths[k]? = some (some p) := by
  rw [nextBody] at h
  by_cases hab : atBound s = true
  · rw [if_pos hab] at h
    injection h with h1 h2
    cases h1
  · rw [if_neg hab] at h
    by_cases hpc : padCond s = true
    · rw [if_pos hpc] at h
      by_cases hassert : (s.frame_paths.length : Int) = s.next_frame_idx
      · rw [if_pos hassert] at h
        obtain ⟨i1, i2, i3, _⟩ := nextLoop_frame_inv h
        exact ⟨i1, i2, i3⟩
      · rw [if_neg hassert] at h
        injection h with h1 h2
        cases h1
    · rw [if_neg hpc] at h
      obtain ⟨i1, i2, i3, _⟩ := nextLoop_frame_inv h
      exact ⟨i1, i2, i3⟩

lemma nextBody_disk {s : FrameIterator} {tr : List EnvStep} {q : String}
    (hq : q ∉ s.disk) (ha : ∀ st ∈ tr, q ∉ st.arrivals) :
    q ∉ (nextBody s tr).2.disk := by
  rw [nextBody]
  by_cases hab : atBound s = true
  · rw [if_pos hab]
    exact hq
  · rw [if_neg hab]
    by_cases hpc : padCond s = true
    · rw [if_pos hpc]
      by_cases hassert : (s.frame_paths.length : Int) = s.next_frame_idx
      · rw [if_pos hassert]
        exact nextLoop_disk hq ha
      · rw [if_neg hassert]
        exact hq
    · rw [if_neg hpc]
      exact nextLoop_disk hq ha

/-- `__next__` with the cursor at `i ≥ 1`: the deletion step runs on slot
`i - 1` and the rest of the call proceeds on the resulting state. -/
lemma nextFrame_del {s : FrameIterator} {i : Nat} (hnext : s.next_frame_idx = (i : Int))
    (hi : 1 ≤ i) {v : Option String} (hv : s.frame_paths[i - 1]? = some v)
    (tr : List EnvStep) : nextFrame s tr = nextBody (delPrev s v) tr := by
  have hne : ¬ (s.next_frame_idx = -1) := by
    rw [hnext]
    omega
  have hpos2 : 0 ≤ s.next_frame_idx - 1 := by
    rw [hnext]
    omega
  have htn : (s.next_frame_idx - 1).toNat = i - 1 := by
    rw [hnext]
    omega
  have hv2 : s.frame_paths[(s.next_frame_idx - 1).toNat]? = some v := by
    rw [htn]
    exact hv
  rw [nextFrame]
  simp only [if_neg hne, if_pos hpos2, hv2]
  rfl

/-- which slot a delivered frame came from, and that it is still there
afterwards. -/
lemma nextFrame_frame_inv {s s' : FrameIterator} {tr : List EnvStep} {k : Nat} {p : String}
    (hge : -1 ≤ s.next_frame_idx)
    (h : nextFrame s tr = (.frame k p, s')) :
    s'.frame_paths[k]? = some (some p) ∧ s'.next_frame_idx = (k : Int) + 1 := by
  by_cases hstart : s.next_frame_idx = -1
  · rw [nextFrame_start hstart,
      nextFrame_zero_red (show (startExtraction s).next_frame_idx = 0 from rfl)] at h
    obtain ⟨i1, i2, i3⟩ := nextBody_frame_inv h
    refine ⟨i3, ?_⟩
    rw [i2, i1]
    simp [startExtraction]
  · by_cases hdel : 0 ≤ s.next_frame_idx - 1
    · rcases hv : s.frame_paths[(s.next_frame_idx - 1).toNat]? with _ | v
      · have hred : nextFrame s tr = (.err .indexError, s) := by
          rw [nextFrame]
          simp only [if_neg hstart, if_pos hdel, hv]
        rw [hred] at h
        injection h with h1 h2
        cases h1
      · have hred : nextFrame s tr = nextBody (delPrev s v) tr := by
          rw [nextFrame]
          simp only [if_neg hstart, if_pos hdel, hv]
          rfl
        rw [hred] at h
        obtain ⟨i1, i2, i3⟩ := nextBody_frame_inv h
        refine ⟨i3, ?_⟩
        have hk : k = s.next_frame_idx.toNat := i1
        have h2 : s'.next_frame_idx = s.next_frame_idx + 1 := i2
        omega
    · have h0 : s.next_frame_idx = 0 := by omega
      rw [nextFrame_zero_red h0] at h
      obtain ⟨i1, i2, i3⟩ := nextBody_frame_inv h
      refine ⟨i3, ?_⟩
      have hk : k = s.next_frame_idx.toNat := i1
      have h2 : s'.next_frame_idx = s.next_frame_idx + 1 := i2
      omega

/-! ### Claim C2 -/

/-- a started two-frame iterator with both notifications already queued. -/
def seekEx : FrameIterator :=
  { id := "ab", next_frame_idx := 0, frame_paths := [],
    path_queue := [fname "ab" 1, fname "ab" 2],
    container_status := .running, num_frames := none, observer_running := true,
    info_line := "frame=    2 fps=0.0", est_num_frames := none,
    disk := [fname "ab" 1, fname "ab" 2] }

/-- C2 (code bug): the loop condition of `seek` at video.py line 205 reads
`while frame_idx < self.next_frame_idx`, which is inverted relative to its
assertion `frame_idx >= self.next_frame_idx` and its docstring
("Fast-forward to frame idx"), so the loop body never runs and `seek` never
pulls.  Concretely: on a started iterator at cursor 0, `seek(1)` returns with
the cursor still at 0 and the state untouched, and the following pull returns
frame 0 — whereas pulling twice and keeping the last result returns frame 1.
So `seek(k)` followed by one pull is *not* equivalent to `k + 1` pulls keeping
the last, and `seek` does not pull until the cursor equals its target. -/
theorem C2_seek_loop_inverted :
    seek seekEx 1 [timeoutSteps 5] = (.done, seekEx) ∧
    (nextFrame (seek seekEx 1 [timeoutSteps 5]).2 (timeoutSteps 5)).1
      = .frame 0 (fname "ab" 1) ∧
    (nextFrame (nextFrame seekEx (timeoutSteps 5)).2 (timeoutSteps 5)).1
      = .frame 1 (fname "ab" 2) := by
  decide

/-! ### Claim C6 -/

/-- a started iterator whose container has exited with count 3, queue empty,
slot 0 unset, watcher running. -/
def c6Ex : FrameIterator :=
  { id := "ab", next_frame_idx := 0, frame_paths := [none], path_queue := [],
    container_status := .exited, num_frames := some 3, observer_running := true,
    info_line := "frame=    3 fps=0.0", est_num_frames := none, disk := [] }

/-- C6 counterexample: a pull that raises the protocol-violation
`RuntimeError` for the foreign filename `intruder_0000001.jpg` leaves the
watcher running — the sequencer does *not* stop its watcher before
propagating the error. -/
theorem C6_watcher_leaks_on_error :
    (nextFrame c6Ex [⟨false, ["intruder_0000001.jpg"]⟩]).1
      = .err (.unexpectedFramePath "intruder_0000001.jpg") ∧
    (nextFrame c6Ex [⟨false, ["intruder_0000001.jpg"]⟩]).2.observer_running = true := by
  decide

/-- C6 (amended): when any error — in particular a ProtocolViolation — is
raised from a pull, the watcher is **not** stopped before the error
propagates: the observer-running flag is exactly what it was before the call
(and `true` when the call had just lazily started extraction).  Only the
end-of-stream paths stop the watcher. -/
theorem C6_error_paths_keep_watcher (s : FrameIterator) (tr : List EnvStep) (e : Err)
    (h : (nextFrame s tr).1 = .err e) :
    (nextFrame s tr).2.observer_running =
      (if s.next_frame_idx = -1 then true else s.observer_running) :=
  nextFrame_err_observer h

theorem C6_error_paths_keep_watcher_witness :
    (nextFrame c6Ex [⟨false, ["intruder_0000001.jpg"]⟩]).2.observer_running =
      (if c6Ex.next_frame_idx = -1 then true else c6Ex.observer_running) :=
  C6_error_paths_keep_watcher c6Ex [⟨false, ["intruder_0000001.jpg"]⟩]
    (.unexpectedFramePath "intruder_0000001.jpg") (by decide)

/-! ### Claim C7 -/

/-- C7 counterexample: with no ffmpeg filter, a failing estimation probe makes
`__init__` raise (video.py lines 48-61 have no handler), so the sequencer is
*not* constructed — contradicting "a failure of the estimation probe does not
prevent constructing the sequencer". -/
theorem C7_probe_failure_blocks_init :
    initFrameIterator "ab" "frame=    3 fps=0.0" false 0 .fail = .error () := rfl

/-- C7 (amended): the pre-run estimate is purely advisory — no pull ever
reads it (result and every other state component are unchanged under any
override of the stored estimate), and when an ffmpeg filter is supplied no
estimate is attempted at all (the probe outcome is ignored and the estimate
is `None`); **however**, when no filter is supplied, a probe failure
propagates out of `__init__` and does prevent construction. -/
theorem C7_estimate_advisory :
    (∀ (id info : String) (fps : Nat) (p p' : ProbeOutcome),
      initFrameIterator id info true fps p = initFrameIterator id info true fps p' ∧
      ∃ s, initFrameIterator id info true fps p = .ok s ∧ s.est_num_frames = none) ∧
    (∀ (s : FrameIterator) (e : Option Nat) (tr : List EnvStep),
      (nextFrame ({ s with est_num_frames := e }) tr).1 = (nextFrame s tr).1) ∧
    (∀ (id info : String) (fps : Nat),
      initFrameIterator id info false fps .fail = .error ()) := by
  refine ⟨?_, ?_, ?_⟩
  · intro id info fps p p'
    exact ⟨rfl, _, rfl, rfl⟩
  · intro s e tr
    obtain ⟨d', hd⟩ := nextFrame_indep s e s.disk tr
    have he : ({ s with est_num_frames := e }) = withED s e s.disk := rfl
    rw [he, hd]
  · intro id info fps
    rfl

theorem C7_estimate_advisory_witness :
    initFrameIterator "ab" "x" true 3 .fail = initFrameIterator "ab" "x" true 3 (.ok 5 7) ∧
    (nextFrame ({ c6Ex with est_num_frames := some 99 }) []).1 = (nextFrame c6Ex []).1 ∧
    initFrameIterator "ab" "x" false 3 .fail = .error () :=
  ⟨(C7_estimate_advisory.1 "ab" "x" 3 .fail (.ok 5 7)).1,
   C7_estimate_advisory.2.1 c6Ex (some 99) [],
   C7_estimate_advisory.2.2 "ab" "x" 3⟩

/-! ### Claim C8 -/

/-- C8: the pull made with the cursor at `i ≥ 1` first attempts to delete the
backing file of the previously delivered frame `i - 1`; afterwards that file
is no longer on disk (provided the external process does not re-create it
during the call), whatever the call returns; and the deletion is silent — the
returned value is identical whatever the scratch directory contained, so a
file already removed by another path never surfaces an error. -/
theorem C8_prev_file_deleted (s : FrameIterator) (i : Nat) (p : String)
    (tr : List EnvStep)
    (hi : 1 ≤ i) (hnext : s.next_frame_idx = (i : Int))
    (hslot : s.frame_paths[i - 1]? = some (some p))
    (harr : ∀ st ∈ tr, p ∉ st.arrivals) :
    p ∉ (nextFrame s tr).2.disk ∧
    (∀ d d' : List String,
      (nextFrame ({ s with disk := d }) tr).1 = (nextFrame ({ s with disk := d' }) tr).1) := by
  constructor
  · rw [nextFrame_del hnext hi hslot tr]
    refine nextBody_disk ?_ harr
    show p ∉ s.disk.filter (fun q => q ≠ strOfSlot (some p))
    intro hmem
    have := List.of_mem_filter hmem
    simp [strOfSlot] at this
  · intro d d'
    obtain ⟨d1, hd1⟩ := nextFrame_indep s s.est_num_frames d tr
    obtain ⟨d2, hd2⟩ := nextFrame_indep s s.est_num_frames d' tr
    have he1 : ({ s with disk := d }) = withED s s.est_num_frames d := rfl
    have he2 : ({ s with disk := d' }) = withED s s.est_num_frames d' := rfl
    rw [he1, he2, hd1, hd2]

/-- a started iterator about to deliver frame 1, frame 0 already delivered
and still on disk. -/
def c8Ex : FrameIterator :=
  { id := "ab", next_frame_idx := 1,
    frame_paths := [some (fname "ab" 1), some (fname "ab" 2)],
    path_queue := [], container_status := .running, num_frames := none,
    observer_running := true, info_line := "frame=    2 fps=0.0",
    est_num_frames := none, disk := [fname "ab" 1, fname "ab" 2] }

theorem C8_prev_file_deleted_witness :
    fname "ab" 1 ∉ (nextFrame c8Ex (timeoutSteps 2)).2.disk ∧
    (nextFrame ({ c8Ex with disk := [] }) (timeoutSteps 2)).1 =
      (nextFrame ({ c8Ex with disk := [fname "ab" 1] }) (timeoutSteps 2)).1 :=
  ⟨(C8_prev_file_deleted c8Ex 1 (fname "ab" 1) (timeoutSteps 2) (by decide) (by decide)
      (by decide) (by decide)).1,
   (C8_prev_file_deleted c8Ex 1 (fname "ab" 1) (timeoutSteps 2) (by decide) (by decide)
      (by decide) (by decide)).2 [] [fname "ab" 1]⟩

/-! ### Claim C9 -/

/-- a started one-frame iterator whose only notification is queued. -/
def c9Ex : FrameIterator :=
  { id := "ab", next_frame_idx := 0, frame_paths := [],
    path_queue := [fname "ab" 1], container_status := .running,
    num_frames := none, observer_running := true,
    info_line := "frame=    1 fps=0.0", est_num_frames := none,
    disk := [fname "ab" 1] }

/-- C9 counterexample: after a pull delivers frame 0, table slot 0 still
holds the delivered path — the slot is *not* cleared back to unset once its
frame has been delivered to the caller (video.py lines 180-183 never reset
`frame_paths[idx]`; the path is in fact re-read by the next call's deletion
step). -/
theorem C9_slot_not_cleared :
    (nextFrame c9Ex (timeoutSteps 2)).1 = .frame 0 (fname "ab" 1) ∧
    slotD (nextFrame c9Ex (timeoutSteps 2)).2.frame_paths 0 = some (fname "ab" 1) := by
  decide

/-- C9 (amended): a slot of the frame path table is written when its
notification is consumed and read by the pull that delivers its frame, but it
is **not** cleared once the frame has been delivered: after a pull returns
`(k, p)`, slot `k` still holds `p` (with the cursor advanced past it); only
the backing *file* is reclaimed, by the following pull's deletion step. -/
theorem C9_slot_retained_after_delivery (s s' : FrameIterator) (tr : List EnvStep)
    (k : Nat) (p : String) (hge : -1 ≤ s.next_frame_idx)
    (h : nextFrame s tr = (.frame k p, s')) :
    s'.frame_paths[k]? = some (some p) ∧ s'.next_frame_idx = (k : Int) + 1 :=
  nextFrame_frame_inv hge h

theorem C9_slot_retained_after_delivery_witness :
    (nextFrame c9Ex (timeoutSteps 2)).2.frame_paths[0]? = some (some (fname "ab" 1)) ∧
    (nextFrame c9Ex (timeoutSteps 2)).2.next_frame_idx = (0 : Int) + 1 :=
  C9_slot_retained_after_delivery c9Ex (nextFrame c9Ex (timeoutSteps 2)).2
    (timeoutSteps 2) 0 (fname "ab" 1) (by decide) (by decide)

/-! ### Claim C4 -/

/-- the state invariant every reachable iterator satisfies: the cursor is at
least the not-started sentinel and within the table, the authoritative count
exists only after the container was observed to exit, and a never-started
iterator has no authoritative count. -/
def WFc (s : FrameIterator) : Prop :=
  -1 ≤ s.next_frame_idx ∧ s.next_frame_idx ≤ (s.frame_paths.length : Int) ∧
  (s.num_frames = none ∨ s.container_status = .exited) ∧
  (s.next_frame_idx = -1 → s.num_frames = none)

instance (s : FrameIterator) : Decidable (WFc s) := by
  unfold WFc
  infer_instance

lemma atBound_true_iff {s : FrameIterator} :
    atBound s = true ↔ ∃ n, s.num_frames = some n ∧ s.next_frame_idx = (n : Int) := by
  unfold atBound
  rcases hn : s.num_frames with _ | n <;> simp [hn]

lemma nextBody_WF {s : FrameIterator} {tr : List EnvStep}
    (h0 : 0 ≤ s.next_frame_idx) (hle : s.next_frame_idx ≤ (s.frame_paths.length : Int))
    (hnum : s.num_frames = none ∨ s.container_status = .exited) :
    0 ≤ (nextBody s tr).2.next_frame_idx ∧
    (nextBody s tr).2.next_frame_idx ≤ ((nextBody s tr).2.frame_paths.length : Int) ∧
    ((nextBody s tr).2.num_frames = none ∨
      (nextBody s tr).2.container_status = .exited) := by
  rw [nextBody]
  by_cases hab : atBound s = true
  · rw [if_pos hab]
    exact ⟨h0, hle, hnum⟩
  · rw [if_neg hab]
    by_cases hpc : padCond s = true
    · rw [if_pos hpc]
      by_cases hassert : (s.frame_paths.length : Int) = s.next_frame_idx
      · rw [if_pos hassert]
        have hle2 : ({ s with frame_paths := s.frame_paths ++ [none] } :
            FrameIterator).next_frame_idx ≤
            ((({ s with frame_paths := s.frame_paths ++ [none] } :
              FrameIterator).frame_paths.length : Int)) := by
          show s.next_frame_idx ≤ ((s.frame_paths ++ [none]).length : Int)
          rw [List.length_append]
          push_cast
          omega
        obtain ⟨a1, a2⟩ := @nextLoop_next_le tr ({ s with frame_paths := s.frame_paths ++ [none] }) h0 hle2
        refine ⟨a1, a2, ?_⟩
        rcases hnum with hn | hs
        · rcases hq : (nextLoop tr ({ s with frame_paths := s.frame_paths ++ [none] })).2.num_frames
            with _ | n
          · exact Or.inl rfl
          · exact Or.inr (nextLoop_WF (fun n hsome => by rw [hn] at hsome; cases hsome) n hq)
        · rcases hq : (nextLoop tr ({ s with frame_paths := s.frame_paths ++ [none] })).2.num_frames
            with _ | n
          · exact Or.inl rfl
          · exact Or.inr (nextLoop_WF (fun _ _ => hs) n hq)
      · rw [if_neg hassert]
        exact ⟨h0, hle, hnum⟩
    · rw [if_neg hpc]
      obtain ⟨a1, a2⟩ := @nextLoop_next_le tr s h0 hle
      refine ⟨a1, a2, ?_⟩
      rcases hnum with hn | hs
      · rcases hq : (nextLoop tr s).2.num_frames with _ | n
        · exact Or.inl rfl
        · exact Or.inr (nextLoop_WF (fun n hsome => by rw [hn] at hsome; cases hsome) n hq)
      · rcases hq : (nextLoop tr s).2.num_frames with _ | n
        · exact Or.inl rfl
        · exact Or.inr (nextLoop_WF (fun _ _ => hs) n hq)

lemma nextFrame_WF {s : FrameIterator} {tr : List EnvStep} (h : WFc s) :
    WFc (nextFrame s tr).2 := by
  obtain ⟨w1, w2, w3, w4⟩ := h
  by_cases hstart : s.next_frame_idx = -1
  · rw [nextFrame_start hstart,
      nextFrame_zero_red (show (startExtraction s).next_frame_idx = 0 from rfl)]
    have h0 : (0 : Int) ≤ (startExtraction s).next_frame_idx := by
      simp [startExtraction]
    have hle : (startExtraction s).next_frame_idx ≤
        (((startExtraction s).frame_paths.length : Int)) := by
      show (0 : Int) ≤ (s.frame_paths.length : Int)
      positivity
    have hnum : (startExtraction s).num_frames = none ∨
        (startExtraction s).container_status = .exited := Or.inl (w4 hstart)
    obtain ⟨a1, a2, a3⟩ := nextBody_WF h0 hle hnum
    refine ⟨by omega, a2, a3, fun hc => ?_⟩
    rw [hc] at a1
    cases a1
  · by_cases hdel : 0 ≤ s.next_frame_idx - 1
    · rcases hv : s.frame_paths[(s.next_frame_idx - 1).toNat]? with _ | v
      · have hred : nextFrame s tr = (.err .indexError, s) := by
          rw [nextFrame]
          simp only [if_neg hstart, if_pos hdel, hv]
        rw [hred]
        exact ⟨w1, w2, w3, w4⟩
      · have hred : nextFrame s tr = nextBody (delPrev s v) tr := by
          rw [nextFrame]
          simp only [if_neg hstart, if_pos hdel, hv]
          rfl
        rw [hred]
        have h0 : (0 : Int) ≤ (delPrev s v).next_frame_idx := by
          show (0 : Int) ≤ s.next_frame_idx
          omega
        have hle : (delPrev s v).next_frame_idx ≤
            (((delPrev s v).frame_paths.length : Int)) := by
          show s.next_frame_idx ≤ (s.frame_paths.length : Int)
          exact w2
        have hnum : (delPrev s v).num_frames = none ∨
            (delPrev s v).container_status = .exited := w3
        obtain ⟨a1, a2, a3⟩ := nextBody_WF h0 hle hnum
        refine ⟨by omega, a2, a3, fun hc => ?_⟩
        rw [hc] at a1
        cases a1
    · have h0 : s.next_frame_idx = 0 := by omega
      rw [nextFrame_zero_red h0]
      obtain ⟨a1, a2, a3⟩ := nextBody_WF (by omega) w2 w3
      refine ⟨by omega, a2, a3, fun hc => ?_⟩
      rw [hc] at a1
      cases a1

lemma nextBody_stop_char {s s' : FrameIterator} {tr : List EnvStep}
    (h0 : 0 ≤ s.next_frame_idx) (hle : s.next_frame_idx ≤ (s.frame_paths.length : Int))
    (hnum : s.num_frames = none ∨ s.container_status = .exited)
    (h : nextBody s tr = (.stopIteration, s')) :
    s'.observer_running = false ∧ s'.container_status = .exited ∧
    ∃ n, s'.num_frames = some n ∧ s'.next_frame_idx = (n : Int) ∧
      (n : Int) ≤ (s'.frame_paths.length : Int) := by
  rw [nextBody] at h
  by_cases hab : atBound s = true
  · rw [if_pos hab] at h
    obtain ⟨n, hn, hk⟩ := atBound_true_iff.mp hab
    injection h with h1 h2
    subst h2
    refine ⟨rfl, ?_, n, hn, hk, ?_⟩
    · rcases hnum with hx | hx
      · rw [hn] at hx
        cases hx
      · exact hx
    · show (n : Int) ≤ (s.frame_paths.length : Int)
      omega
  · rw [if_neg hab] at h
    by_cases hpc : padCond s = true
    · rw [if_pos hpc] at h
      by_cases hassert : (s.frame_paths.length : Int) = s.next_frame_idx
      · rw [if_pos hassert] at h
        have hfst : (nextLoop tr ({ s with frame_paths := s.frame_paths ++ [none] })).1 =
            .stopIteration := by
          rw [h]
        obtain ⟨o1, o2, o3, o4, m, o5, o6⟩ := nextLoop_stop_inv hfst
        have hle2 : ({ s with frame_paths := s.frame_paths ++ [none] } :
            FrameIterator).next_frame_idx ≤
            ((({ s with frame_paths := s.frame_paths ++ [none] } :
              FrameIterator).frame_paths.length : Int)) := by
          show s.next_frame_idx ≤ ((s.frame_paths ++ [none]).length : Int)
          rw [List.length_append]
          push_cast
          omega
        obtain ⟨a1, a2⟩ := @nextLoop_next_le tr ({ s with frame_paths := s.frame_paths ++ [none] }) h0 hle2
        rw [h] at o1 o2 o5 o6 a2
        exact ⟨o1, o2, m, o5, o6, o6 ▸ a2⟩
      · rw [if_neg hassert] at h
        injection h with h1 h2
        cases h1
    · rw [if_neg hpc] at h
      have hfst : (nextLoop tr s).1 = .stopIteration := by
        rw [h]
      obtain ⟨o1, o2, o3, o4, m, o5, o6⟩ := nextLoop_stop_inv hfst
      obtain ⟨a1, a2⟩ := @nextLoop_next_le tr s h0 hle
      rw [h] at o1 o2 o5 o6 a2
      exact ⟨o1, o2, m, o5, o6, o6 ▸ a2⟩

lemma nextFrame_stop_char {s s' : FrameIterator} {tr : List EnvStep}
    (hwf : WFc s) (h : nextFrame s tr = (.stopIteration, s')) :
    s'.observer_running = false ∧ s'.container_status = .exited ∧
    ∃ n, s'.num_frames = some n ∧ s'.next_frame_idx = (n : Int) ∧
      (n : Int) ≤ (s'.frame_paths.length : Int) := by
  obtain ⟨w1, w2, w3, w4⟩ := hwf
  by_cases hstart : s.next_frame_idx = -1
  · rw [nextFrame_start hstart,
      nextFrame_zero_red (show (startExtraction s).next_frame_idx = 0 from rfl)] at h
    refine nextBody_stop_char ?_ ?_ ?_ h
    · simp [startExtraction]
    · show (0 : Int) ≤ (s.frame_paths.length : Int)
      positivity
    · exact Or.inl (w4 hstart)
  · by_cases hdel : 0 ≤ s.next_frame_idx - 1
    · rcases hv : s.frame_paths[(s.next_frame_idx - 1).toNat]? with _ | v
      · have hred : nextFrame s tr = (.err .indexError, s) := by
          rw [nextFrame]
          simp only [if_neg hstart, if_pos hdel, hv]
        rw [hred] at h
        injection h with h1 h2
        cases h1
      · have hred : nextFrame s tr = nextBody (delPrev s v) tr := by
          rw [nextFrame]
          simp only [if_neg hstart, if_pos hdel, hv]
          rfl
        rw [hred] at h
        refine nextBody_stop_char ?_ ?_ ?_ h
        · show (0 : Int) ≤ s.next_frame_idx
          omega
        · show s.next_frame_idx ≤ (s.frame_paths.length : Int)
          exact w2
        · exact w3
    · have h0 : s.next_frame_idx = 0 := by omega
      rw [nextFrame_zero_red h0] at h
      exact nextBody_stop_char (by omega) w2 w3 h

lemma closeLoop_done {traces : List (List EnvStep)} {s s' : FrameIterator}
    (hwf : WFc s) (h : closeLoop traces s = (.done, s')) :
    s'.observer_running = false ∧ s'.container_status = .exited ∧
    ∃ n, s'.num_frames = some n ∧ s'.next_frame_idx = (n : Int) ∧
      (n : Int) ≤ (s'.frame_paths.length : Int) := by
  induction traces generalizing s with
  | nil =>
    rw [closeLoop] at h
    injection h with h1 h2
    cases h1
  | cons t ts ih =>
    rw [closeLoop] at h
    rcases hn : nextFrame s t with ⟨r, s₁⟩
    rw [hn] at h
    cases r with
    | stopIteration =>
      injection h with h1 h2
      subst h2
      exact nextFrame_stop_char hwf hn
    | frame i p =>
      refine ih ?_ h
      have h2 := @nextFrame_WF s t hwf
      rw [hn] at h2
      exact h2
    | err e =>
      injection h with h1 h2
      cases h1
    | timeoutExhausted =>
      injection h with h1 h2
      cases h1

/-- C4: `close()` is a no-op when the sequencer was never started
(cursor `-1`); otherwise it repeatedly calls `__next__` until `StopIteration`,
so a normal return means the terminal state was reached: the watcher is
stopped, the container has been observed as exited, and the cursor sits at the
authoritative bound.  And `close()` is idempotent: a second call (on any
well-formed state a first successful close produces) again returns normally
and leaves the watcher stopped and the container reaped, with the cursor
unchanged at the bound. -/
theorem C4_close_contract :
    (∀ (s : FrameIterator) (traces : List (List EnvStep)),
      s.next_frame_idx = -1 → close s traces = (.done, s)) ∧
    (∀ (s : FrameIterator) (traces : List (List EnvStep)) (s' : FrameIterator),
      WFc s → close s traces = (.done, s') → s.next_frame_idx ≠ -1 →
      s'.observer_running = false ∧ s'.container_status = .exited ∧
      ∃ n, s'.num_frames = some n ∧ s'.next_frame_idx = (n : Int)) ∧
    (∀ (s : FrameIterator) (traces : List (List EnvStep)) (s' : FrameIterator)
        (t : List EnvStep) (ts : List (List EnvStep)),
      WFc s → close s traces = (.done, s') → s.next_frame_idx ≠ -1 →
      ∃ s'', close s' (t :: ts) = (.done, s'') ∧ s''.observer_running = false ∧
        s''.container_status = .exited ∧
        s''.next_frame_idx = s'.next_frame_idx) := by
  have key : ∀ (s : FrameIterator) (traces : List (List EnvStep)) (s' : FrameIterator),
      WFc s → close s traces = (.done, s') → s.next_frame_idx ≠ -1 →
      s'.observer_running = false ∧ s'.container_status = .exited ∧
      ∃ n, s'.num_frames = some n ∧ s'.next_frame_idx = (n : Int) ∧
        (n : Int) ≤ (s'.frame_paths.length : Int) := by
    intro s traces s' hwf h hne
    rw [close, if_neg hne] at h
    exact closeLoop_done hwf h
  refine ⟨?_, ?_, ?_⟩
  · intro s traces h
    rw [close, if_pos h]
  · intro s traces s' hwf h hne
    obtain ⟨o1, o2, n, o3, o4, o5⟩ := key s traces s' hwf h hne
    exact ⟨o1, o2, n, o3, o4⟩
  · intro s traces s' t ts hwf h hne
    obtain ⟨o1, o2, n, o3, o4, o5⟩ := key s traces s' hwf h hne
    have hne2 : ¬ (s'.next_frame_idx = -1) := by omega
    obtain ⟨d, hd⟩ := nextFrame_exhausted o3 o4 o5 t
    refine ⟨{ s' with observer_running := false, disk := d }, ?_, rfl, o2, rfl⟩
    rw [close, if_neg hne2, closeLoop, hd]

/-- a fresh never-started iterator. -/
def c4Fresh : FrameIterator :=
  { id := "ab", next_frame_idx := -1, frame_paths := [], path_queue := [],
    container_status := .running, num_frames := none, observer_running := false,
    info_line := "frame=    1 fps=0.0", est_num_frames := none, disk := [] }

/-- a started one-frame iterator that has consumed nothing yet. -/
def c4Ex : FrameIterator :=
  { id := "ab", next_frame_idx := 0, frame_paths := [], path_queue := [],
    container_status := .running, num_frames := none, observer_running := true,
    info_line := "frame=    1 fps=0.0", est_num_frames := none, disk := [] }

def cTraces4 : List (List EnvStep) := [[⟨true, [fname "ab" 1]⟩], []]

theorem C4_close_contract_witness :
    close c4Fresh [] = (.done, c4Fresh) ∧
    ((close c4Ex cTraces4).2.observer_running = false ∧
      (close c4Ex cTraces4).2.container_status = .exited ∧
      ∃ n, (close c4Ex cTraces4).2.num_frames = some n ∧
        (close c4Ex cTraces4).2.next_frame_idx = (n : Int)) ∧
    (∃ s'', close (close c4Ex cTraces4).2 [[]] = (.done, s'') ∧
      s''.observer_running = false ∧ s''.container_status = .exited ∧
      s''.next_frame_idx = (close c4Ex cTraces4).2.next_frame_idx) :=
  ⟨C4_close_contract.1 c4Fresh [] rfl,
   C4_close_contract.2.1 c4Ex cTraces4 (close c4Ex cTraces4).2 (by decide) (by decide)
     (by decide),
   C4_close_contract.2.2 c4Ex cTraces4 (close c4Ex cTraces4).2 [] [] (by decide) (by decide)
     (by decide)⟩

/-! ### Claim C5 -/

lemma nextBody_err_unexpected {s : FrameIterator} {tr : List EnvStep} {p : String}
    (h : (nextBody s tr).1 = .err (.unexpectedFramePath p)) :
    matchIdx s.id (basename p) = none := by
  rw [nextBody] at h
  by_cases hab : atBound s = true
  · rw [if_pos hab] at h
    cases h
  · rw [if_neg hab] at h
    by_cases hpc : padCond s = true
    · rw [if_pos hpc] at h
      by_cases hassert : (s.frame_paths.length : Int) = s.next_frame_idx
      · rw [if_pos hassert] at h
        have h2 := nextLoop_err_unexpected h
        exact h2
      · rw [if_neg hassert] at h
        injection h with h1
        cases h1
    · rw [if_neg hpc] at h
      have h2 := nextLoop_err_unexpected h
      exact h2

lemma nextBody_err_noFrameCount {s : FrameIterator} {tr : List EnvStep}
    (h : (nextBody s tr).1 = .err .noFrameCount) :
    searchFrame s.info_line.data = none ∧ s.container_status = .running := by
  rw [nextBody] at h
  by_cases hab : atBound s = true
  · rw [if_pos hab] at h
    cases h
  · rw [if_neg hab] at h
    by_cases hpc : padCond s = true
    · rw [if_pos hpc] at h
      by_cases hassert : (s.frame_paths.length : Int) = s.next_frame_idx
      · rw [if_pos hassert] at h
        have h2 := nextLoop_err_noFrameCount h
        exact h2
      · rw [if_neg hassert] at h
        injection h with h1
        cases h1
    · rw [if_neg hpc] at h
      have h2 := nextLoop_err_noFrameCount h
      exact h2

lemma nextFrame_err_unexpected {s : FrameIterator} {tr : List EnvStep} {p : String}
    (h : (nextFrame s tr).1 = .err (.unexpectedFramePath p)) :
    matchIdx s.id (basename p) = none := by
  by_cases hstart : s.next_frame_idx = -1
  · rw [nextFrame_start hstart,
      nextFrame_zero_red (show (startExtraction s).next_frame_idx = 0 from rfl)] at h
    have h2 := nextBody_err_unexpected h
    exact h2
  · by_cases hdel : 0 ≤ s.next_frame_idx - 1
    · rcases hv : s.frame_paths[(s.next_frame_idx - 1).toNat]? with _ | v
      · have hred : nextFrame s tr = (.err .indexError, s) := by
          rw [nextFrame]
          simp only [if_neg hstart, if_pos hdel, hv]
        rw [hred] at h
        cases h
      · have hred : nextFrame s tr = nextBody (delPrev s v) tr := by
          rw [nextFrame]
          simp only [if_neg hstart, if_pos hdel, hv]
          rfl
        rw [hred] at h
        have h2 := nextBody_err_unexpected h
        exact h2
    · have hred : nextFrame s tr = nextBody s tr := by
        rw [nextFrame]
        simp only [if_neg hstart, if_neg hdel]
      rw [hred] at h
      have h2 := nextBody_err_unexpected h
      exact h2

lemma nextFrame_err_noFrameCount {s : FrameIterator} {tr : List EnvStep}
    (h : (nextFrame s tr).1 = .err .noFrameCount) :
    searchFrame s.info_line.data = none ∧
    (s.next_frame_idx ≠ -1 → s.container_status = .running) := by
  by_cases hstart : s.next_frame_idx = -1
  · rw [nextFrame_start hstart,
      nextFrame_zero_red (show (startExtraction s).next_frame_idx = 0 from rfl)] at h
    have h2 := nextBody_err_noFrameCount h
    exact ⟨h2.1, fun hc => absurd hstart hc⟩
  · by_cases hdel : 0 ≤ s.next_frame_idx - 1
    · rcases hv : s.frame_paths[(s.next_frame_idx - 1).toNat]? with _ | v
      · have hred : nextFrame s tr = (.err .indexError, s) := by
          rw [nextFrame]
          simp only [if_neg hstart, if_pos hdel, hv]
        rw [hred] at h
        cases h
      · have hred : nextFrame s tr = nextBody (delPrev s v) tr := by
          rw [nextFrame]
          simp only [if_neg hstart, if_pos hdel, hv]
          rfl
        rw [hred] at h
        have h2 := nextBody_err_noFrameCount h
        exact ⟨h2.1, fun _ => h2.2⟩
    · have hred : nextFrame s tr = nextBody s tr := by
        rw [nextFrame]
        simp only [if_neg hstart, if_neg hdel]
      rw [hred] at h
      have h2 := nextBody_err_noFrameCount h
      exact ⟨h2.1, fun _ => h2.2⟩

/-- C5: a pull raises the fatal protocol-violation `RuntimeError` in exactly
two situations.  Completeness: an `Unexpected frame path: p` error implies the
filename of `p` fails the run-scoped `{id}_<digits>.jpg` match, and a
`Could not extract frame count` error implies the trailing container log line
lacks the `frame=<N>` marker and the exit was being observed for the first
time (the container had not previously been seen as exited).  Soundness: a
pull that consumes a non-matching notification raises `Unexpected frame path`
with that very path (it is neither dropped nor misindexed), and a pull that
first observes the container exit under a marker-less log raises
`Could not extract frame count`. -/
theorem C5_protocol_violation_exactly_two :
    (∀ (s : FrameIterator) (tr : List EnvStep) (p : String),
      (nextFrame s tr).1 = .err (.unexpectedFramePath p) →
      matchIdx s.id (basename p) = none) ∧
    (∀ (s : FrameIterator) (tr : List EnvStep),
      (nextFrame s tr).1 = .err .noFrameCount →
      searchFrame s.info_line.data = none ∧
      (s.next_frame_idx ≠ -1 → s.container_status = .running)) ∧
    (∀ (s : FrameIterator) (p : String),
      s.next_frame_idx = 0 → s.num_frames = none →
      s.frame_paths[0]? = some none → s.path_queue = [] →
      matchIdx s.id (basename p) = none →
      (nextFrame s [⟨false, [p]⟩]).1 = .err (.unexpectedFramePath p)) ∧
    (∀ (s : FrameIterator) (arr : List String),
      s.next_frame_idx = 0 → s.container_status = .running → s.num_frames = none →
      s.frame_paths[0]? = some none →
      searchFrame s.info_line.data = none →
      (nextFrame s [⟨true, arr⟩]).1 = .err .noFrameCount) := by
  refine ⟨fun s tr p h => nextFrame_err_unexpected h,
    fun s tr h => nextFrame_err_noFrameCount h, ?_, ?_⟩
  · intro s p h0 hnum hslot hq hmi
    have hab : atBound s = false := by
      simp [atBound, hnum]
    have hlen : (1 : Int) ≤ (s.frame_paths.length : Int) := by
      rcases List.getElem?_eq_some.mp hslot with ⟨hl, _⟩
      omega
    rw [nextFrame_to_loop_zero h0 hab hlen]
    have htn : s.next_frame_idx.toNat = 0 := by
      rw [h0]
      rfl
    have hx : loopExit s = none := loopExit_none (by rw [htn]; exact hslot)
    have hpoll : pollStep ⟨false, [p]⟩ s = .inr s := by
      simp [pollStep]
    have hadd : addPathTable s.id s.frame_paths p = .error (.unexpectedFramePath p) := by
      unfold addPathTable
      rw [hmi]
    have hIter : loopIter ⟨false, [p]⟩ s = .inl (.err (.unexpectedFramePath p),
        { s with path_queue := [], disk := s.disk ++ [p] }) := by
      rw [loopIter, hpoll]
      simp [arrive, recvOnce, hq, hadd]
    rw [nextLoop_cons_inl hx hIter]
  · intro s arr h0 hst hnum hslot hsearch
    have hab : atBound s = false := by
      simp [atBound, hnum]
    have hlen : (1 : Int) ≤ (s.frame_paths.length : Int) := by
      rcases List.getElem?_eq_some.mp hslot with ⟨hl, _⟩
      omega
    rw [nextFrame_to_loop_zero h0 hab hlen]
    have htn : s.next_frame_idx.toNat = 0 := by
      rw [h0]
      rfl
    have hx : loopExit s = none := loopExit_none (by rw [htn]; exact hslot)
    have hIter : loopIter ⟨true, arr⟩ s = .inl (.err .noFrameCount,
        { s with container_status := .exited }) := by
      rw [loopIter, pollStep, if_pos ⟨(by rw [hst]; intro hc; cases hc), rfl⟩, hsearch]
    rw [nextLoop_cons_inl hx hIter]

/-- a state about to observe a marker-less exit. -/
def c5Ex : FrameIterator :=
  { id := "ab", next_frame_idx := 0, frame_paths := [none], path_queue := [],
    container_status := .running, num_frames := none, observer_running := true,
    info_line := "no marker here", est_num_frames := none, disk := [] }

/-- a state about to receive a foreign notification. -/
def c5Ex2 : FrameIterator :=
  { id := "ab", next_frame_idx := 0, frame_paths := [none], path_queue := [],
    container_status := .exited, num_frames := none, observer_running := true,
    info_line := "frame=    3 fps=0.0", est_num_frames := none, disk := [] }

theorem C5_protocol_violation_exactly_two_witness :
    matchIdx c5Ex2.id (basename "intruder_0000001.jpg") = none ∧
    (searchFrame c5Ex.info_line.data = none ∧
      (c5Ex.next_frame_idx ≠ -1 → c5Ex.container_status = .running)) ∧
    (nextFrame c5Ex2 [⟨false, ["intruder_0000001.jpg"]⟩]).1
      = .err (.unexpectedFramePath "intruder_0000001.jpg") ∧
    (nextFrame c5Ex [⟨true, []⟩]).1 = .err .noFrameCount :=
  ⟨C5_protocol_violation_exactly_two.1 c5Ex2 [⟨false, ["intruder_0000001.jpg"]⟩]
      "intruder_0000001.jpg" (by decide),
   C5_protocol_violation_exactly_two.2.1 c5Ex [⟨true, []⟩] (by decide),
   C5_protocol_violation_exactly_two.2.2.1 c5Ex2 "intruder_0000001.jpg" rfl rfl rfl rfl
     (by decide),
   C5_protocol_violation_exactly_two.2.2.2 c5Ex [] rfl rfl rfl rfl (by decide)⟩

/-! ### Claim C3 -/

lemma loopIter_exited_inl {step : EnvStep} {s : FrameIterator} {r : NextRes}
    {s' : FrameIterator} (hst : s.container_status = .exited)
    (h : loopIter step s = .inl (r, s')) : ∃ e, r = .err e := by
  have hpoll : pollStep step s = .inr s := by
    rw [pollStep, if_neg]
    intro hc
    exact hc.1 hst
  rw [loopIter, hpoll] at h
  have h2 : recvOnce (arrive step s) = .inl (r, s') := h
  rcases recvOnce_inl_inv h2 with ⟨ev, qrest, e, _, _, he, _⟩
  exact ⟨e, he⟩

lemma nextLoop_no_stop_exited {tr : List EnvStep} {s : FrameIterator} {N : Nat}
    (hst : s.container_status = .exited) (hnum : s.num_frames = some N)
    (hk : s.next_frame_idx ≠ (N : Int)) :
    (nextLoop tr s).1 ≠ .stopIteration := by
  induction tr generalizing s with
  | nil =>
    rcases hx : loopExit s with _ | ⟨r, s'⟩
    · rw [nextLoop_nil_none hx]
      intro hc
      cases hc
    · rw [nextLoop_nil_some hx]
      rcases loopExit_some_inv hx with ⟨hr, _, _⟩ | ⟨p, hr, _, _⟩
      · simp [hr]
      · simp [hr]
  | cons step rest ih =>
    rcases hx : loopExit s with _ | ⟨r, s'⟩
    · rcases h2 : loopIter step s with ⟨r2, s2⟩ | s₁
      · rw [nextLoop_cons_inl hx h2]
        rcases loopIter_exited_inl hst h2 with ⟨e, he⟩
        simp [he]
      · rw [nextLoop_cons_inr hx h2]
        obtain ⟨_, hnx, _, _, _, _, _, hex, hd⟩ := loopIter_inr_inv h2
        rcases hd with ⟨hcs, hnm⟩ | ⟨hne, _, _⟩
        · exact ih (hcs.trans hst) (hnm.trans hnum) (by rw [hnx]; exact hk)
        · exact absurd hst hne
    · rw [nextLoop_cons_some hx]
      rcases loopExit_some_inv hx with ⟨hr, _, _⟩ | ⟨p, hr, _, _⟩
      · simp [hr]
      · simp [hr]

lemma nextBody_no_stop {s : FrameIterator} {tr : List EnvStep} {k N : Nat}
    (hk : s.next_frame_idx = (k : Int)) (hlt : k < N)
    (hcase : (s.num_frames = some N ∧ s.container_status = .exited) ∨
      (s.num_frames = none ∧ searchFrame s.info_line.data = some N)) :
    (nextBody s tr).1 ≠ .stopIteration := by
  have hkN : s.next_frame_idx ≠ (N : Int) := by
    rw [hk]
    omega
  have hab : ¬ (atBound s = true) := by
    rcases hcase with ⟨hnum, _⟩ | ⟨hnum, _⟩
    · simp only [atBound, hnum, hk, decide_eq_true_eq]
      omega
    · simp [atBound, hnum]
  rw [nextBody, if_neg hab]
  by_cases hpc : padCond s = true
  · rw [if_pos hpc]
    by_cases hassert : (s.frame_paths.length : Int) = s.next_frame_idx
    · rw [if_pos hassert]
      rcases hcase with ⟨hnum, hst⟩ | ⟨hnum, hsearch⟩
      · exact nextLoop_no_stop_exited hst hnum hkN
      · exact nextLoop_no_stop hsearch hkN
    · rw [if_neg hassert]
      simp
  · rw [if_neg hpc]
    rcases hcase with ⟨hnum, hst⟩ | ⟨hnum, hsearch⟩
    · exact nextLoop_no_stop_exited hst hnum hkN
    · exact nextLoop_no_stop hsearch hkN

lemma nextFrame_no_stop {s : FrameIterator} {tr : List EnvStep} {k N : Nat}
    (hk : s.next_frame_idx = (k : Int)) (hlt : k < N)
    (hcase : (s.num_frames = some N ∧ s.container_status = .exited) ∨
      (s.num_frames = none ∧ searchFrame s.info_line.data = some N)) :
    (nextFrame s tr).1 ≠ .stopIteration := by
  have hne : ¬ (s.next_frame_idx = -1) := by
    rw [hk]
    omega
  by_cases hdel : 0 ≤ s.next_frame_idx - 1
  · rcases hv : s.frame_paths[(s.next_frame_idx - 1).toNat]? with _ | v
    · have hred : nextFrame s tr = (.err .indexError, s) := by
        rw [nextFrame]
        simp only [if_neg hne, if_pos hdel, hv]
      rw [hred]
      simp
    · have hred : nextFrame s tr = nextBody (delPrev s v) tr := by
        rw [nextFrame]
        simp only [if_neg hne, if_pos hdel, hv]
        rfl
      rw [hred]
      exact nextBody_no_stop hk hlt hcase
  · have hred : nextFrame s tr = nextBody s tr := by
      rw [nextFrame]
      simp only [if_neg hne, if_neg hdel]
    rw [hred]
    exact nextBody_no_stop hk hlt hcase

lemma nextFrame_waits_for_arrival {s : FrameIterator} {k N m : Nat}
    {tr : List EnvStep}
    (hid : goodId s.id) (hk : s.next_frame_idx = (k : Int))
    (hq : s.path_queue = []) (_hst : s.container_status = .exited)
    (hnum : s.num_frames = some N) (hlt : k < N)
    (hslot : s.frame_paths[k]? = some none) :
    (nextFrame s (timeoutSteps m ++ (⟨false, [fname s.id (k + 1)]⟩ :: tr))).1 =
      .frame k (fname s.id (k + 1)) := by
  have hab : atBound s = false := by
    simp only [atBound, hnum, hk]
    simp only [decide_eq_false_iff_not]
    omega
  have hklen : k < s.frame_paths.length := (List.getElem?_eq_some.mp hslot).1
  have hlen : (k : Int) + 1 ≤ (s.frame_paths.length : Int) := by
    omega
  have htn : s.next_frame_idx.toNat = k := by
    rw [hk]
    exact Int.toNat_natCast k
  rcases Nat.eq_zero_or_pos k with hk0 | hk1
  · subst hk0
    rw [nextFrame_to_loop_zero (by rw [hk]; rfl) hab (by omega)
      (timeoutSteps m ++ (⟨false, [fname s.id (0 + 1)]⟩ :: tr))]
    have hslotTn : s.frame_paths[s.next_frame_idx.toNat]? = some none := by
      rw [htn]
      exact hslot
    rw [nextLoop_timeouts hq hslotTn m (⟨false, [fname s.id (0 + 1)]⟩ :: tr)]
    obtain ⟨s', heq, _⟩ := @nextLoop_arrival s 0 tr hid hq hk hslot
    rw [heq]
  · rw [nextFrame_to_loop hk hk1 hab hlen
      (timeoutSteps m ++ (⟨false, [fname s.id (k + 1)]⟩ :: tr))]
    generalize hsd : delPrev s (slotD s.frame_paths (k - 1)) = sd
    have hidsd : sd.id = s.id := by
      rw [← hsd]
      rfl
    have hq2 : sd.path_queue = [] := by
      rw [← hsd]
      exact hq
    have hk2 : sd.next_frame_idx = (k : Int) := by
      rw [← hsd]
      exact hk
    have hslot2 : sd.frame_paths[k]? = some none := by
      rw [← hsd]
      exact hslot
    have htn2 : sd.next_frame_idx.toNat = k := by
      rw [hk2]
      exact Int.toNat_natCast k
    have hslotTn2 : sd.frame_paths[sd.next_frame_idx.toNat]? = some none := by
      rw [htn2]
      exact hslot2
    rw [← hidsd]
    rw [nextLoop_timeouts hq2 hslotTn2 m (⟨false, [fname sd.id (k + 1)]⟩ :: tr)]
    obtain ⟨s', heq, _⟩ := @nextLoop_arrival sd k tr (by rw [hidsd]; exact hid) hq2 hk2 hslot2
    rw [heq]

/-- C3: no premature end-of-stream and no deadlock.  (1) If the authoritative
frame count `N` is known (exit already observed) or about to be observed (the
exit log carries `frame=N`), a pull at any cursor `k < N` never signals
end-of-stream, for every interleaving of polls and arrivals.  (2) A pull at
cursor `k < N` whose notification is still missing rides out any number of
bounded-timeout receives (container exited, queue empty) and, once the missing
notification arrives, returns exactly frame `k` with its path.  (3) A pull at
cursor `= N` signals end-of-stream, and (4) end-of-stream is signalled only
with the cursor at the authoritative bound. -/
theorem C3_no_premature_eos :
    (∀ (s : FrameIterator) (tr : List EnvStep) (k N : Nat),
      s.next_frame_idx = (k : Int) → k < N →
      ((s.num_frames = some N ∧ s.container_status = .exited) ∨
        (s.num_frames = none ∧ searchFrame s.info_line.data = some N)) →
      (nextFrame s tr).1 ≠ .stopIteration) ∧
    (∀ (s : FrameIterator) (k N m : Nat) (tr : List EnvStep),
      goodId s.id → s.next_frame_idx = (k : Int) → s.path_queue = [] →
      s.container_status = .exited → s.num_frames = some N → k < N →
      s.frame_paths[k]? = some none →
      (nextFrame s (timeoutSteps m ++ (⟨false, [fname s.id (k + 1)]⟩ :: tr))).1 =
        .frame k (fname s.id (k + 1))) ∧
    (∀ (s : FrameIterator) (n : Nat) (tr : List EnvStep),
      s.num_frames = some n → s.next_frame_idx = (n : Int) →
      (n : Int) ≤ (s.frame_paths.length : Int) →
      (nextFrame s tr).1 = .stopIteration) ∧
    (∀ (s s' : FrameIterator) (tr : List EnvStep),
      WFc s → nextFrame s tr = (.stopIteration, s') →
      ∃ n, s'.num_frames = some n ∧ s'.next_frame_idx = (n : Int)) := by
  refine ⟨fun s tr k N hk hlt hcase => nextFrame_no_stop hk hlt hcase,
    fun s k N m tr hid hk hq hst hnum hlt hslot =>
      nextFrame_waits_for_arrival hid hk hq hst hnum hlt hslot,
    fun s n tr hnum hnext hlen => ?_,
    fun s s' tr hwf h => ?_⟩
  · obtain ⟨d, hd⟩ := nextFrame_exhausted hnum hnext hlen tr
    rw [hd]
  · obtain ⟨_, _, n, h1, h2, _⟩ := nextFrame_stop_char hwf h
    exact ⟨n, h1, h2⟩

/-- exited container reported 3 frames; cursor 1; the notification for frame 1
has not arrived yet. -/
def c3Ex : FrameIterator :=
  { id := "ab", next_frame_idx := 1, frame_paths := [some (fname "ab" 1), none],
    path_queue := [], container_status := .exited, num_frames := some 3,
    observer_running := true, info_line := "frame=    3 fps=0.0",
    est_num_frames := none, disk := [fname "ab" 1] }

/-- exhausted state: cursor at the authoritative bound 3. -/
def c3Stop : FrameIterator :=
  { id := "ab", next_frame_idx := 3,
    frame_paths := [some (fname "ab" 1), some (fname "ab" 2), some (fname "ab" 3)],
    path_queue := [], container_status := .exited, num_frames := some 3,
    observer_running := true, info_line := "frame=    3 fps=0.0",
    est_num_frames := none, disk := [] }

theorem C3_no_premature_eos_witness :
    (nextFrame c3Ex []).1 ≠ .stopIteration ∧
    (nextFrame c3Ex (timeoutSteps 2 ++ (⟨false, [fname "ab" 2]⟩ :: []))).1 =
      .frame 1 (fname "ab" 2) ∧
    (nextFrame c3Stop []).1 = .stopIteration ∧
    ∃ n, (nextFrame c3Stop []).2.num_frames = some n ∧
      (nextFrame c3Stop []).2.next_frame_idx = (n : Int) :=
  ⟨C3_no_premature_eos.1 c3Ex [] 1 3 rfl (by decide) (Or.inl ⟨rfl, rfl⟩),
   C3_no_premature_eos.2.1 c3Ex 1 3 2 [] (by decide) rfl rfl rfl rfl (by decide) rfl,
   C3_no_premature_eos.2.2.1 c3Stop 3 [] rfl rfl (by decide),
   C3_no_premature_eos.2.2.2 c3Stop (nextFrame c3Stop []).2 [] (by decide) (by decide)⟩

/-! ### Claim C1 -/

/-- a freshly constructed iterator whose run will see the notifications `q`
delivered through the queue (the files already sit on disk). -/
def initState (id : String) (q : List String) : FrameIterator :=
  { id := id, next_frame_idx := -1, frame_paths := [], path_queue := q,
    container_status := .running, num_frames := none, observer_running := false,
    info_line := "", est_num_frames := none, disk := q }

/-- `m` successive calls to `__next__`, each given a budget of `b` wait-loop
iterations, collecting the returned `(index, path)` pairs; any non-frame
outcome aborts with `none`. -/
def pulls (b : Nat) : Nat → FrameIterator → Option (List (Nat × String)) × FrameIterator
  | 0, s => (some [], s)
  | m + 1, s =>
    match nextFrame s (timeoutSteps b) with
    | (.frame i p, s₁) =>
      match pulls b m s₁ with
      | (some rest, s₂) => (some ((i, p) :: rest), s₂)
      | (none, s₂) => (none, s₂)
    | (_, s₁) => (none, s₁)

lemma nextLoop_exit_any {s : FrameIterator} {r : NextRes × FrameIterator}
    (h : loopExit s = some r) : ∀ tr, nextLoop tr s = r := by
  intro tr
  cases tr with
  | nil => exact nextLoop_nil_some h
  | cons step rest => exact nextLoop_cons_some h

lemma C1_loop : ∀ (q₁ q₂ : List Nat) (b : Nat) (s : FrameIterator) (k : Nat),
    goodId s.id → s.next_frame_idx = (k : Int) →
    s.path_queue = (q₁ ++ (k + 1) :: q₂).map (fname s.id) →
    s.container_status = .running → s.num_frames = none →
    (∀ e ∈ q₁, 1 ≤ e) → (k + 1) ∉ q₁ →
    s.frame_paths[k]? = some none →
    q₁.length + 1 ≤ b →
    ∃ s', nextLoop (timeoutSteps b) s = (.frame k (fname s.id (k + 1)), s') ∧
      s'.id = s.id ∧ s'.next_frame_idx = (k : Int) + 1 ∧
      s'.path_queue = q₂.map (fname s.id) ∧
      s'.container_status = .running ∧ s'.num_frames = none ∧
      s.frame_paths.length ≤ s'.frame_paths.length ∧
      (∀ j, slotD s'.frame_paths j =
        if j + 1 ∈ q₁ ++ [k + 1] then some (fname s.id (j + 1))
        else slotD s.frame_paths j) := by
  intro q₁
  induction q₁ with
  | nil =>
    intro q₂ b s k hid hk hq hst hnum _ _ hslot hb
    obtain ⟨b', rfl⟩ : ∃ b', b = b' + 1 := ⟨b - 1, by omega⟩
    have htn : s.next_frame_idx.toNat = k := by
      rw [hk]
      exact Int.toNat_natCast k
    have hx : loopExit s = none := loopExit_none (by rw [htn]; exact hslot)
    have hpoll : pollStep timeoutStep s = .inr s := by
      simp [pollStep, timeoutStep]
    have hadd : addPathTable s.id s.frame_paths (fname s.id (k + 1)) =
        .ok (setSlot s.frame_paths k (fname s.id (k + 1))) := by
      have h2 := @addPathTable_fname s.id hid s.frame_paths (k + 1) (by omega)
      simpa using h2
    have hIter : loopIter timeoutStep s = .inr
        { s with path_queue := q₂.map (fname s.id),
                 frame_paths := setSlot s.frame_paths k (fname s.id (k + 1)) } := by
      rw [loopIter, hpoll]
      simp [arrive, recvOnce, timeoutStep, hq, hadd]
    have hsplit : timeoutSteps (b' + 1) = timeoutStep :: timeoutSteps b' := by
      simp [timeoutSteps, List.replicate_succ]
    rw [hsplit, nextLoop_cons_inr hx hIter]
    have hslot2 : (setSlot s.frame_paths k (fname s.id (k + 1)))[s.next_frame_idx.toNat]? =
        some (some (fname s.id (k + 1))) := by
      rw [htn]
      exact getElem?_setSlot_self _ _ _
    have hx2 : loopExit ({ s with
                    path_queue := q₂.map (fname s.id),
                    frame_paths := setSlot s.frame_paths k (fname s.id (k + 1)) }) =
        some (.frame s.next_frame_idx.toNat (fname s.id (k + 1)),
          { s with next_frame_idx := s.next_frame_idx + 1,
                   path_queue := q₂.map (fname s.id),
                   frame_paths := setSlot s.frame_paths k (fname s.id (k + 1)) }) :=
      loopExit_frame hslot2
    refine ⟨({ s with next_frame_idx := s.next_frame_idx + 1,
                      path_queue := q₂.map (fname s.id),
                      frame_paths := setSlot s.frame_paths k (fname s.id (k + 1)) }),
      ?_, rfl, ?_, rfl, hst, hnum, length_le_setSlot _ _ _, ?_⟩
    · rw [nextLoop_exit_any hx2 (timeoutSteps b'), htn]
    · show s.next_frame_idx + 1 = (k : Int) + 1
      rw [hk]
    · intro j
      by_cases hj : j = k
      · subst hj
        simp [slotD_setSlot_self]
      · rw [slotD_setSlot_ne _ _ _ _ hj]
        have hcond : ¬ (j + 1 ∈ ([] : List Nat) ++ [k + 1]) := by
          simp
          omega
        rw [if_neg hcond]
  | cons e q₁ ih =>
    intro q₂ b s k hid hk hq hst hnum h1 hnotin hslot hb
    obtain ⟨b', rfl⟩ : ∃ b', b = b' + 1 := ⟨b - 1, by omega⟩
    have htn : s.next_frame_idx.toNat = k := by
      rw [hk]
      exact Int.toNat_natCast k
    have hx : loopExit s = none := loopExit_none (by rw [htn]; exact hslot)
    have hklen : k < s.frame_paths.length := (List.getElem?_eq_some.mp hslot).1
    have he1 : 1 ≤ e := h1 e (List.mem_cons_self e q₁)
    have hek : e ≠ k + 1 := by
      intro hc
      subst hc
      exact hnotin (List.mem_cons_self _ _)
    have hpoll : pollStep timeoutStep s = .inr s := by
      simp [pollStep, timeoutStep]
    have hadd : addPathTable s.id s.frame_paths (fname s.id e) =
        .ok (setSlot s.frame_paths (e - 1) (fname s.id e)) :=
      @addPathTable_fname s.id hid s.frame_paths e he1
    have hIter : loopIter timeoutStep s = .inr
        { s with path_queue := (q₁ ++ (k + 1) :: q₂).map (fname s.id),
                 frame_paths := setSlot s.frame_paths (e - 1) (fname s.id e) } := by
      rw [loopIter, hpoll]
      simp [arrive, recvOnce, timeoutStep, hq, hadd]
    have hsplit : timeoutSteps (b' + 1) = timeoutStep :: timeoutSteps b' := by
      simp [timeoutSteps, List.replicate_succ]
    rw [hsplit, nextLoop_cons_inr hx hIter]
    set s₁ : FrameIterator :=
      { s with path_queue := (q₁ ++ (k + 1) :: q₂).map (fname s.id),
               frame_paths := setSlot s.frame_paths (e - 1) (fname s.id e) } with hs₁
    have hids : s₁.id = s.id := by rw [hs₁]
    have hfp : s₁.frame_paths = setSlot s.frame_paths (e - 1) (fname s.id e) := by rw [hs₁]
    have hid2 : goodId s₁.id := by rw [hids]; exact hid
    have hk2 : s₁.next_frame_idx = (k : Int) := by rw [hs₁]; exact hk
    have hq2 : s₁.path_queue = (q₁ ++ (k + 1) :: q₂).map (fname s₁.id) := by rw [hs₁]
    have hst2 : s₁.container_status = .running := by rw [hs₁]; exact hst
    have hnum2 : s₁.num_frames = none := by rw [hs₁]; exact hnum
    have hslot1 : s₁.frame_paths[k]? = some none := by
      rw [hfp, getElem?_setSlot_ne _ _ _ _ (by omega) hklen]
      exact hslot
    obtain ⟨s', heq, hid', hnx', hq', hst', hnum', hlen', hslots'⟩ :=
      ih q₂ b' s₁ k hid2 hk2 hq2 hst2 hnum2
        (fun e' he' => h1 e' (List.mem_cons_of_mem _ he'))
        (fun hc => hnotin (List.mem_cons_of_mem _ hc))
        hslot1 (by simp only [List.length_cons] at hb; omega)
    refine ⟨s', ?_, hid'.trans hids, hnx', ?_, hst', hnum', ?_, ?_⟩
    · rw [heq, hids]
    · rw [hq', hids]
    · have hle : s.frame_paths.length ≤ s₁.frame_paths.length := by
        rw [hfp]
        exact length_le_setSlot _ _ _
      exact le_trans hle hlen'
    · intro j
      have hsj := hslots' j
      rw [hids, hfp] at hsj
      rw [hsj]
      by_cases hmem : j + 1 ∈ q₁ ++ [k + 1]
      · have hmem2 : j + 1 ∈ (e :: q₁) ++ [k + 1] := by
          rcases List.mem_append.mp hmem with h | h
          · exact List.mem_append.mpr (Or.inl (List.mem_cons_of_mem _ h))
          · exact List.mem_append.mpr (Or.inr h)
        rw [if_pos hmem, if_pos hmem2]
      · rw [if_neg hmem]
        by_cases hje : j + 1 = e
        · have hj : j = e - 1 := by omega
          have hmem2 : j + 1 ∈ (e :: q₁) ++ [k + 1] := by
            rw [hje]
            exact List.mem_append.mpr (Or.inl (List.mem_cons_self _ _))
          rw [if_pos hmem2, hj, slotD_setSlot_self]
          have hee : e - 1 + 1 = e := by omega
          rw [hee]
        · have hmem2 : ¬ (j + 1 ∈ (e :: q₁) ++ [k + 1]) := by
            intro hc
            rcases List.mem_append.mp hc with h | h
            · rcases List.mem_cons.mp h with h' | h'
              · exact hje h'
              · exact hmem (List.mem_append.mpr (Or.inl h'))
            · exact hmem (List.mem_append.mpr (Or.inr h))
          rw [if_neg hmem2, slotD_setSlot_ne _ _ _ _ (by omega)]

/-- the between-pulls invariant of the run: `done` are the 1-based frame
numbers whose notifications have been consumed, `todo` those still queued,
and the cursor sits at `k` with frames `1..k` already buffered. -/
def C1Inv (id : String) (N : Nat) (done todo : List Nat) (k : Nat)
    (s : FrameIterator) : Prop :=
  s.id = id ∧ s.next_frame_idx = (k : Int) ∧
  s.path_queue = todo.map (fname id) ∧
  s.container_status = .running ∧ s.num_frames = none ∧
  k ≤ s.frame_paths.length ∧
  (∀ j, slotD s.frame_paths j = if j + 1 ∈ done then some (fname id (j + 1)) else none) ∧
  (done ++ todo).Perm (List.range' 1 N) ∧
  (∀ i, 1 ≤ i → i ≤ k → i ∈ done)

lemma C1_loop_inv {id : String} {N : Nat} {done todo : List Nat} {k : Nat}
    {sl : FrameIterator}
    (hid : goodId id) (hsid : sl.id = id) (hk : sl.next_frame_idx = (k : Int))
    (hq : sl.path_queue = todo.map (fname id))
    (hst : sl.container_status = .running) (hnum : sl.num_frames = none)
    (hslotk : sl.frame_paths[k]? = some none)
    (hslots : ∀ j, slotD sl.frame_paths j =
      if j + 1 ∈ done then some (fname id (j + 1)) else none)
    (hperm : (done ++ todo).Perm (List.range' 1 N))
    (hdone : ∀ i, 1 ≤ i → i ≤ k → i ∈ done)
    (hmem : k + 1 ∈ todo) :
    ∃ done' todo' s', nextLoop (timeoutSteps N) sl = (.frame k (fname id (k + 1)), s') ∧
      C1Inv id N done' todo' (k + 1) s' := by
  obtain ⟨q₁, q₂, rfl⟩ := List.append_of_mem hmem
  have hnodup : (done ++ (q₁ ++ (k + 1) :: q₂)).Nodup :=
    (hperm.nodup_iff).mpr (List.nodup_range' 1 N)
  have hnodupT : (q₁ ++ (k + 1) :: q₂).Nodup := (List.nodup_append.mp hnodup).2.1
  have hq₁ : (k + 1) ∉ q₁ := by
    have hdisj := (List.nodup_append.mp hnodupT).2.2
    intro hc
    exact (List.disjoint_left.mp hdisj hc) (List.mem_cons_self _ _)
  have hbound : ∀ e ∈ done ++ (q₁ ++ (k + 1) :: q₂), 1 ≤ e ∧ e ≤ N := by
    intro e he
    have h2 := List.mem_range'_1.mp (hperm.mem_iff.mp he)
    omega
  have hb : q₁.length + 1 ≤ N := by
    have hlenp := hperm.length_eq
    simp [List.length_append] at hlenp
    omega
  have h1 : ∀ e ∈ q₁, 1 ≤ e := by
    intro e he
    exact (hbound e (List.mem_append.mpr (Or.inr (List.mem_append.mpr (Or.inl he))))).1
  obtain ⟨s', heq, hid', hnx', hq', hst', hnum', hlen', hslots'⟩ :=
    C1_loop q₁ q₂ N sl k (by rw [hsid]; exact hid) hk
      (by rw [hq, hsid]) hst hnum h1 hq₁ hslotk hb
  rw [hsid] at heq hq' hslots' hid'
  have hklen : k < sl.frame_paths.length := (List.getElem?_eq_some.mp hslotk).1
  refine ⟨done ++ (q₁ ++ [k + 1]), q₂, s', heq, hid', ?_, hq', hst', hnum', ?_, ?_, ?_, ?_⟩
  · rw [hnx']
    omega
  · have := hlen'
    omega
  · intro j
    rw [hslots' j]
    by_cases hmq : j + 1 ∈ q₁ ++ [k + 1]
    · rw [if_pos hmq, if_pos (List.mem_append.mpr (Or.inr hmq))]
    · rw [if_neg hmq, hslots j]
      by_cases hmd : j + 1 ∈ done
      · rw [if_pos hmd, if_pos (List.mem_append.mpr (Or.inl hmd))]
      · have hno : ¬ (j + 1 ∈ done ++ (q₁ ++ [k + 1])) := by
          intro hc
          rcases List.mem_append.mp hc with h | h
          · exact hmd h
          · exact hmq h
        rw [if_neg hmd, if_neg hno]
  · simpa using hperm
  · intro i hi1 hi2
    by_cases hik : i ≤ k
    · exact List.mem_append.mpr (Or.inl (hdone i hi1 hik))
    · have hieq : i = k + 1 := by omega
      subst hieq
      exact List.mem_append.mpr (Or.inr (List.mem_append.mpr
        (Or.inr (List.mem_singleton.mpr rfl))))

lemma C1_pull {id : String} {N : Nat} {done todo : List Nat} {k : Nat} {s : FrameIterator}
    (hid : goodId id) (hinv : C1Inv id N done todo k s) (hkN : k < N) :
    ∃ done' todo' s', nextFrame s (timeoutSteps N) = (.frame k (fname id (k + 1)), s') ∧
      C1Inv id N done' todo' (k + 1) s' := by
  obtain ⟨hsid, hk, hq, hst, hnum, hlen, hslots, hperm, hdone⟩ := hinv
  have hmem_k1 : k + 1 ∈ done ++ todo :=
    hperm.mem_iff.mpr (List.mem_range'_1.mpr (by omega))
  obtain ⟨sd, hred, hsdid, hsdnx, hsdfp, hsdq, hsdst, hsdnum⟩ :
      ∃ sd, nextFrame s (timeoutSteps N) = nextBody sd (timeoutSteps N) ∧
        sd.id = s.id ∧ sd.next_frame_idx = s.next_frame_idx ∧
        sd.frame_paths = s.frame_paths ∧ sd.path_queue = s.path_queue ∧
        sd.container_status = s.container_status ∧ sd.num_frames = s.num_frames := by
    rcases Nat.eq_zero_or_pos k with hk0 | hk1
    · refine ⟨s, ?_, rfl, rfl, rfl, rfl, rfl, rfl⟩
      exact nextFrame_zero_red (by rw [hk, hk0]; rfl) _
    · have hkdone : k ∈ done := hdone k hk1 le_rfl
      have hkk : k - 1 + 1 = k := by omega
      have hsl : slotD s.frame_paths (k - 1) = some (fname id k) := by
        rw [hslots (k - 1), hkk, if_pos hkdone]
      have hv : s.frame_paths[k - 1]? = some (some (fname id k)) := by
        rw [getElem?_of_slotD (by omega), hsl]
      exact ⟨delPrev s (some (fname id k)), nextFrame_del hk hk1 hv _,
        rfl, rfl, rfl, rfl, rfl, rfl⟩
  rw [hred]
  have hsdnum' : sd.num_frames = none := hsdnum.trans hnum
  have hab : ¬ (atBound sd = true) := by
    simp [atBound, hsdnum']
  rw [nextBody, if_neg hab]
  by_cases hpad : s.frame_paths.length = k
  · have hpc : padCond sd = true := by
      have hlt : ((k : Nat) : Int) < (k : Int) + 1 := by omega
      simp only [padCond, hsdnum', hsdfp, hsdnx, hk, hpad]
      simp [hlt]
    rw [if_pos hpc]
    have hassert : ((sd.frame_paths.length : Nat) : Int) = sd.next_frame_idx := by
      rw [hsdfp, hpad, hsdnx, hk]
    rw [if_pos hassert]
    have hk1todo : k + 1 ∈ todo := by
      rcases List.mem_append.mp hmem_k1 with hmd | hmt
      · exfalso
        have h2 := hslots k
        rw [if_pos hmd] at h2
        have h3 : slotD s.frame_paths k = none := by
          simp [slotD, List.getElem?_eq_none (by omega : s.frame_paths.length ≤ k)]
        rw [h3] at h2
        cases h2
      · exact hmt
    have hslotk : (sd.frame_paths ++ [none])[k]? = some none := by
      rw [hsdfp, List.getElem?_append_right (by omega), hpad]
      simp
    obtain ⟨done', todo', s', heq, hinv'⟩ :=
      @C1_loop_inv id N done todo k
        ({ sd with frame_paths := sd.frame_paths ++ [none] }) hid
        (hsdid.trans hsid) (hsdnx.trans hk) (hsdq.trans hq) (hsdst.trans hst)
        hsdnum' hslotk (by intro j; rw [slotD_append_none, hsdfp]; exact hslots j)
        hperm hdone hk1todo
    exact ⟨done', todo', s', heq, hinv'⟩
  · have hklen : k < s.frame_paths.length := by omega
    have hpc : ¬ (padCond sd = true) := by
      simp only [padCond, hsdnum', hsdfp, hsdnx, hk]
      simp
      omega
    rw [if_neg hpc]
    by_cases hmd : k + 1 ∈ done
    · have hsl : slotD s.frame_paths k = some (fname id (k + 1)) := by
        rw [hslots k, if_pos hmd]
      have hv : s.frame_paths[k]? = some (some (fname id (k + 1))) := by
        rw [getElem?_of_slotD hklen, hsl]
      have htn : sd.next_frame_idx.toNat = k := by
        rw [hsdnx, hk]
        exact Int.toNat_natCast k
      have hslot2 : sd.frame_paths[sd.next_frame_idx.toNat]? =
          some (some (fname id (k + 1))) := by
        rw [htn, hsdfp]
        exact hv
      have hx2 : loopExit sd = some (.frame sd.next_frame_idx.toNat (fname id (k + 1)),
          { sd with next_frame_idx := sd.next_frame_idx + 1 }) :=
        loopExit_frame hslot2
      refine ⟨done, todo, ({ sd with next_frame_idx := sd.next_frame_idx + 1 }), ?_, ?_⟩
      · rw [nextLoop_exit_any hx2 (timeoutSteps N), htn]
      · refine ⟨hsdid.trans hsid, ?_, hsdq.trans hq, hsdst.trans hst, hsdnum',
          ?_, ?_, hperm, ?_⟩
        · show sd.next_frame_idx + 1 = ((k + 1 : Nat) : Int)
          rw [hsdnx, hk]
          omega
        · show k + 1 ≤ sd.frame_paths.length
          rw [hsdfp]
          omega
        · intro j
          show slotD sd.frame_paths j = _
          rw [hsdfp]
          exact hslots j
        · intro i hi1 hi2
          by_cases hik : i ≤ k
          · exact hdone i hi1 hik
          · have hieq : i = k + 1 := by omega
            subst hieq
            exact hmd
    · have hk1todo : k + 1 ∈ todo := by
        rcases List.mem_append.mp hmem_k1 with h | h
        · exact absurd h hmd
        · exact h
      have hslotk : sd.frame_paths[k]? = some none := by
        rw [hsdfp, getElem?_of_slotD hklen, hslots k, if_neg hmd]
      obtain ⟨done', todo', s', heq, hinv'⟩ :=
        @C1_loop_inv id N done todo k sd hid (hsdid.trans hsid) (hsdnx.trans hk)
          (hsdq.trans hq) (hsdst.trans hst) hsdnum' hslotk
          (by intro j; rw [hsdfp]; exact hslots j) hperm hdone hk1todo
      exact ⟨done', todo', s', heq, hinv'⟩

lemma C1_pulls {id : String} {N : Nat} (hid : goodId id) :
    ∀ (m k : Nat) (done todo : List Nat) (s : FrameIterator),
      C1Inv id N done todo k s → k + m = N →
      (pulls N m s).1 = some ((List.range' k m).map (fun i => (i, fname id (i + 1)))) := by
  intro m
  induction m with
  | zero =>
    intro k done todo s _ _
    rfl
  | succ m ih =>
    intro k done todo s hinv hkm
    obtain ⟨done', todo', s', hstep, hinv'⟩ := C1_pull hid hinv (by omega)
    have hrec := ih (k + 1) done' todo' s' hinv' (by omega)
    rcases hp : pulls N m s' with ⟨r, s₂⟩
    rw [hp] at hrec
    simp only at hrec
    rw [pulls]
    simp only [hstep, hp, hrec]
    simp [List.range'_succ]

/-- C1: regardless of the arrival order of the completion notifications — any
permutation of the 1-based filenames for frames `1..N` queued for delivery —
`N` successive calls to `__next__` return the frame indices `0, 1, ..., N-1`
in exactly that order, each paired with the path whose filename encodes that
index. -/
theorem C1_frames_in_order (id : String) (N : Nat) (perm : List Nat)
    (hid : goodId id) (hN : 1 ≤ N) (hperm : perm.Perm (List.range' 1 N)) :
    (pulls N N (initState id (perm.map (fname id)))).1 =
      some ((List.range N).map (fun i => (i, fname id (i + 1)))) := by
  obtain ⟨M, rfl⟩ : ∃ M, N = M + 1 := ⟨N - 1, by omega⟩
  have hfirst : nextFrame (initState id (perm.map (fname id))) (timeoutSteps (M + 1)) =
      nextFrame (startExtraction (initState id (perm.map (fname id))))
        (timeoutSteps (M + 1)) :=
    nextFrame_start rfl _
  have hInv : C1Inv id (M + 1) [] perm 0
      (startExtraction (initState id (perm.map (fname id)))) := by
    refine ⟨rfl, rfl, rfl, rfl, rfl, Nat.zero_le _, ?_, ?_, ?_⟩
    · intro j
      simp [slotD, startExtraction, initState]
    · simpa using hperm
    · intro i h1 h2
      omega
  have hpull := C1_pulls hid (M + 1) 0 [] perm _ hInv (by omega)
  rw [pulls] at hpull ⊢
  rw [hfirst]
  rw [hpull]
  rw [List.range_eq_range']

theorem C1_frames_in_order_witness :
    goodId "ab" ∧ 1 ≤ 3 ∧ ([3, 1, 2].Perm (List.range' 1 3)) ∧
    (pulls 3 3 (initState "ab" ([3, 1, 2].map (fname "ab")))).1 =
      some ((List.range 3).map (fun i => (i, fname "ab" (i + 1)))) :=
  ⟨by decide, by decide, by decide,
   C1_frames_in_order "ab" 3 [3, 1, 2] (by decide) (by decide) (by decide)⟩

end Video
